import Mathlib

/-!
# Verification of the DDP ingestion & donation workflow engine

Shallow embedding of the core of the `dd-videos` repository
(`port/helpers.py`, `port/youtube.py`, `port/script.py`):

* `Helpers` — the tree flattener (`dict_denester`), the shallowest-match
  resolver (`find_item` / `find_items`) together with the fragment of the
  Python `re` engine its patterns exercise, and `split_dataframe`;
* `Youtube` — the archive classifier (`validate_zip`) over the category
  and status catalogues declared in `youtube.py`;
* `Script` — the workflow state machine (`process`) driving the
  prompt/validate/retry/consent/donate sequence, modelled as a function
  from the list of host responses to the list of emitted commands.

Python values are embedded as follows: dictionaries that are used as
insertion-ordered key/value tables become association lists
(`List (String × α)`) with the `dict.update` overwrite policy made
explicit; pandas dataframes become lists of rows; generator functions
become functions that return the list of yielded commands, consuming one
host response per rendered page.
-/

namespace DDV

namespace Helpers

/-- Embedding of `helpers.split_dataframe`.  The dataframe is represented
by its list of rows; `df[start:end]` is the row slice
`(df.drop start).take (end - start)` and `len(df) // chunk_size` is
`Nat` division.  The Python loop

```
num_chunks = len(df) // chunk_size + 1
for i in range(num_chunks):
    start = i * chunk_size
    end = min((i + 1) * chunk_size, len(df))
    chunks.append(df[start:end].reset_index(drop=True))
```

appends one slice per `i`, which is the `List.map` below with the locals
`num_chunks`, `start` and `end` inlined (`reset_index(drop=True)` only
renumbers the pandas index and does not change the rows). -/
def split_dataframe (df : List α) (chunk_size : Nat) : List (List α) :=
  (List.range (df.length / chunk_size + 1)).map (fun i =>
    (df.drop (i * chunk_size)).take
      (min ((i + 1) * chunk_size) df.length - i * chunk_size))

/-- The browsing-history fragment of `script.extract_tiktok`: the chunks
of `split_dataframe(df, 250000)` are entered into `donation_dict` under
the keys `tiktok_video_browsing_history_{i}`, one entry per chunk
(`df.to_dict(orient="records")` is represented by the chunk's row list);
nothing is entered when the dataframe is empty (`if not df.empty`). -/
def tiktok_browsing_entries (df : List α) : List (String × List α) :=
  if df.isEmpty then []
  else (split_dataframe df 250000).enum.map
    (fun ie => ("tiktok_video_browsing_history_" ++ toString ie.1, ie.2))

theorem split_dataframe_length (df : List α) (c : Nat) :
    (split_dataframe df c).length = df.length / c + 1 := by
  simp [split_dataframe]

theorem split_dataframe_chunk_le (df : List α) (c : Nat) :
    ∀ chunk ∈ split_dataframe df c, chunk.length ≤ c := by
  intro chunk hchunk
  simp only [split_dataframe, List.mem_map, List.mem_range] at hchunk
  obtain ⟨i, -, rfl⟩ := hchunk
  refine le_trans (List.length_take_le _ _) ?_
  have h1 : min ((i + 1) * c) df.length ≤ (i + 1) * c := min_le_left _ _
  have h2 : (i + 1) * c = i * c + c := by ring
  omega

/-- The slices produced by the first `n` loop iterations concatenate to
the first `min (n * c) df.length` rows. -/
theorem split_dataframe_flatten_aux (df : List α) (c : Nat) (n : Nat) :
    ((List.range n).map (fun i =>
      (df.drop (i * c)).take (min ((i + 1) * c) df.length - i * c))).flatten
    = df.take (min (n * c) df.length) := by
  induction n with
  | zero => simp
  | succ n ih =>
    rw [List.range_succ, List.map_append, List.flatten_append, ih]
    simp only [List.map_cons, List.map_nil, List.flatten_cons,
      List.flatten_nil, List.append_nil]
    by_cases h : n * c ≤ df.length
    · have hmin : min (n * c) df.length = n * c := min_eq_left h
      rw [hmin, ← List.take_add]
      congr 1
      have h1 : n * c ≤ (n + 1) * c := by
        have : (n + 1) * c = n * c + c := by ring
        omega
      have h2 : n * c ≤ min ((n + 1) * c) df.length := le_min h1 h
      omega
    · push_neg at h
      have hd : df.drop (n * c) = [] := List.drop_eq_nil_of_le (le_of_lt h)
      rw [hd]
      have h1 : min (n * c) df.length = df.length := min_eq_right (le_of_lt h)
      have h2 : min ((n + 1) * c) df.length = df.length := by
        have : (n + 1) * c = n * c + c := by ring
        omega
      simp [h1, h2]

theorem split_dataframe_flatten (df : List α) (c : Nat) (hc : 0 < c) :
    (split_dataframe df c).flatten = df := by
  have h := split_dataframe_flatten_aux df c (df.length / c + 1)
  have hlt : df.length < (df.length / c + 1) * c := by
    have h1 : c * (df.length / c) + df.length % c = df.length :=
      Nat.div_add_mod _ _
    have h2 : df.length % c < c := Nat.mod_lt _ hc
    have h3 : (df.length / c + 1) * c = c * (df.length / c) + c := by ring
    omega
  have hmin : min ((df.length / c + 1) * c) df.length = df.length :=
    min_eq_right (le_of_lt hlt)
  rw [split_dataframe, h, hmin, List.take_length]

theorem split_dataframe_last_empty (df : List α) (c : Nat)
    (hdvd : c ∣ df.length) :
    (split_dataframe df c).getLast? = some [] := by
  rw [split_dataframe, List.range_succ, List.map_append, List.map_cons,
    List.map_nil, List.getLast?_concat]
  have hstart : df.length / c * c = df.length := Nat.div_mul_cancel hdvd
  rw [hstart]
  simp [List.drop_length]

/-- C10 helper: at 250000 rows, `split_dataframe(df, 250000)` is the full
dataframe followed by one empty chunk. -/
theorem split_dataframe_at_cap (df : List α) (h : df.length = 250000) :
    split_dataframe df 250000 = [df, []] := by
  have h2 : df.length / 250000 + 1 = 2 := by rw [h]
  have hr : List.range 2 = [0, 1] := by decide
  rw [split_dataframe, h2, hr]
  simp only [List.map_cons, List.map_nil]
  have e0 : min ((0 + 1) * 250000) df.length - 0 * 250000 = df.length := by
    omega
  have e1 : df.drop (1 * 250000) = [] := by
    apply List.drop_eq_nil_of_le; omega
  rw [e0, e1]
  simp

/-- **C10**.  For a dataframe `df` and chunk size `c > 0`,
`split_dataframe(df, c)` returns exactly `len(df) // c + 1` chunks, each
with at most `c` rows, whose in-order concatenation is `df`; whenever `c`
divides `len(df)` the final chunk is empty, and in particular a TikTok
browsing history of exactly 250000 rows yields a second, empty
donation-mapping entry in `extract_tiktok`'s `donation_dict`. -/
theorem split_dataframe_c10 (df : List α) (c : Nat) (hc : 0 < c) :
    (split_dataframe df c).length = df.length / c + 1
    ∧ (∀ chunk ∈ split_dataframe df c, chunk.length ≤ c)
    ∧ (split_dataframe df c).flatten = df
    ∧ (c ∣ df.length → (split_dataframe df c).getLast? = some [])
    ∧ (df.length = 250000 → tiktok_browsing_entries df =
        [("tiktok_video_browsing_history_0", df),
         ("tiktok_video_browsing_history_1", [])]) := by
  refine ⟨split_dataframe_length df c, split_dataframe_chunk_le df c,
    split_dataframe_flatten df c hc, fun hdvd =>
      split_dataframe_last_empty df c hdvd, fun hcap => ?_⟩
  have hne : ¬ df.isEmpty := by
    cases df with
    | nil => simp at hcap
    | cons a l => simp
  rw [tiktok_browsing_entries, if_neg hne, split_dataframe_at_cap df hcap]
  have he : ([df, ([] : List α)]).enum = [(0, df), (1, [])] := rfl
  rw [he]
  simp only [List.map_cons, List.map_nil]
  have h0 : "tiktok_video_browsing_history_" ++ toString (0 : Nat) =
      "tiktok_video_browsing_history_0" := by decide
  have h1 : "tiktok_video_browsing_history_" ++ toString (1 : Nat) =
      "tiktok_video_browsing_history_1" := by decide
  rw [h0, h1]

/-- Witness for C10 at the concrete dataframe `[1, 2, 3]` with chunk size
`2`. -/
theorem split_dataframe_c10_witness :
    (0 < 2)
    ∧ ((split_dataframe [1, 2, 3] 2).length = [1, 2, 3].length / 2 + 1
      ∧ (∀ chunk ∈ split_dataframe [1, 2, 3] 2, chunk.length ≤ 2)
      ∧ (split_dataframe [1, 2, 3] 2).flatten = [1, 2, 3]
      ∧ (2 ∣ [1, 2, 3].length →
          (split_dataframe [1, 2, 3] 2).getLast? = some [])
      ∧ ([1, 2, 3].length = 250000 → tiktok_browsing_entries [1, 2, 3] =
          [("tiktok_video_browsing_history_0", [1, 2, 3]),
           ("tiktok_video_browsing_history_1", [])])) :=
  ⟨by decide, split_dataframe_c10 [1, 2, 3] 2 (by decide)⟩


/-! ## The tree flattener `helpers.dict_denester` -/

/-- A Python value as traversed by `dict_denester`: a dict whose keys are
embedded as the strings Python interpolates into the path (the code
applies `str(k)` / f-string formatting to every key), a list, or a
scalar leaf of type `α`. -/
inductive PyVal (α : Type) where
  | dict : List (String × PyVal α) → PyVal α
  | list : List (PyVal α) → PyVal α
  | scalar : α → PyVal α

/-- Python's `name[1:]`: the string with its first character removed
(Python slices strings by code point, so this is `List.drop 1` on the
character list). -/
def pyTail (s : String) : String := ⟨s.data.drop 1⟩

/-- `d.update({k: v})` on an insertion-ordered Python dict embedded as an
association list: if `k` is already present its value is replaced in
place, otherwise the pair is appended at the end. -/
def dictUpdate (d : List (String × α)) (k : String) (v : α) :
    List (String × α) :=
  if d.any (fun kv => kv.1 == k) then
    d.map (fun kv => if kv.1 == k then (k, v) else kv)
  else d ++ [(k, v)]

mutual

/-- Embedding of `helpers.dict_denester`.  The parameters are the Python
arguments `inp`, `new` (the dict being filled) and `name` (the running
path); the `run_first=True` reset of `new` to `{}` is performed by the
top-level entry point `dict_denester` below.  The `isinstance` dispatch
becomes the match on the `PyVal` constructors. -/
def denest : PyVal α → List (String × α) → String → List (String × α)
  | .dict entries, new, name => denestDict entries new name
  | .list elems, new, name => denestList elems new name 0
  | .scalar s, new, name => dictUpdate new (pyTail name) s

/-- The `for k, v in inp.items()` loop of `dict_denester`: containers
recurse with path `f"{name}-{str(k)}"`, scalars write
`new[newname[1:]] = v`. -/
def denestDict :
    List (String × PyVal α) → List (String × α) → String → List (String × α)
  | [], new, _ => new
  | (k, v) :: rest, new, name =>
      denestDict rest
        (match v with
         | .dict es => denest (.dict es) new (name ++ "-" ++ k)
         | .list es => denest (.list es) new (name ++ "-" ++ k)
         | .scalar s => dictUpdate new (pyTail (name ++ "-" ++ k)) s)
        name

/-- The `for i, item in enumerate(inp)` loop of `dict_denester`: every
element recurses with path `f"{name}-{i}"` (scalars are handled by the
`else` branch of the recursive call). -/
def denestList :
    List (PyVal α) → List (String × α) → String → Nat → List (String × α)
  | [], new, _, _ => new
  | item :: rest, new, name, i =>
      denestList rest (denest item new (name ++ "-" ++ toString i)) name (i + 1)

end

/-- `dict_denester(inp)` as called by the rest of the code
(`run_first=True`, so `new = {}` and `name = ""`). -/
def dict_denester (inp : PyVal α) : List (String × α) := denest inp [] ""

mutual

/-- The depth-first list of `(path, scalar)` pairs of a value, keyed by
the dash-joined path of dict keys and 0-based list indices with the
leading dash stripped — the order and keying in which `dict_denester`
writes the leaves into `new`. -/
def leaves : PyVal α → String → List (String × α)
  | .dict entries, name => leavesDict entries name
  | .list elems, name => leavesList elems name 0
  | .scalar s, name => [(pyTail name, s)]

/-- `leaves` over the entries of a dict. -/
def leavesDict : List (String × PyVal α) → String → List (String × α)
  | [], _ => []
  | (k, v) :: rest, name =>
      leaves v (name ++ "-" ++ k) ++ leavesDict rest name

/-- `leaves` over the elements of a list, counting indices from `i`. -/
def leavesList : List (PyVal α) → String → Nat → List (String × α)
  | [], _, _ => []
  | item :: rest, name, i =>
      leaves item (name ++ "-" ++ toString i) ++ leavesList rest name (i + 1)

end

/-- Folding `dict.update` over a list of pairs, starting from `d`. -/
def updAll (d l : List (String × α)) : List (String × α) :=
  l.foldl (fun acc kv => dictUpdate acc kv.1 kv.2) d

theorem updAll_append (d a b : List (String × α)) :
    updAll d (a ++ b) = updAll (updAll d a) b := by
  simp [updAll, List.foldl_append]

mutual

/-- `dict_denester` is exactly the fold of `dict.update` over the
depth-first leaf list. -/
theorem denest_eq (t : PyVal α) (new : List (String × α)) (name : String) :
    denest t new name = updAll new (leaves t name) := by
  cases t with
  | dict entries => rw [denest, leaves]; exact denestDict_eq entries new name
  | list elems => rw [denest, leaves]; exact denestList_eq elems new name 0
  | scalar s => rw [denest, leaves]; rfl

theorem denestDict_eq (entries : List (String × PyVal α))
    (new : List (String × α)) (name : String) :
    denestDict entries new name = updAll new (leavesDict entries name) := by
  cases entries with
  | nil => rfl
  | cons kv rest =>
    obtain ⟨k, v⟩ := kv
    cases v with
    | dict es =>
      show denestDict rest (denest (PyVal.dict es) new (name ++ "-" ++ k))
          name = _
      rw [leavesDict, updAll_append,
        denest_eq (PyVal.dict es) new (name ++ "-" ++ k)]
      exact denestDict_eq rest _ name
    | list es =>
      show denestDict rest (denest (PyVal.list es) new (name ++ "-" ++ k))
          name = _
      rw [leavesDict, updAll_append,
        denest_eq (PyVal.list es) new (name ++ "-" ++ k)]
      exact denestDict_eq rest _ name
    | scalar s =>
      show denestDict rest (dictUpdate new (pyTail (name ++ "-" ++ k)) s)
          name = _
      rw [leavesDict, updAll_append]
      have h : updAll new (leaves (PyVal.scalar s) (name ++ "-" ++ k)) =
          dictUpdate new (pyTail (name ++ "-" ++ k)) s := rfl
      rw [h]
      exact denestDict_eq rest _ name

theorem denestList_eq (elems : List (PyVal α)) (new : List (String × α))
    (name : String) (i : Nat) :
    denestList elems new name i = updAll new (leavesList elems name i) := by
  cases elems with
  | nil => rfl
  | cons item rest =>
    rw [denestList, leavesList, updAll_append,
      denest_eq item new (name ++ "-" ++ toString i)]
    exact denestList_eq rest _ name (i + 1)

end

theorem dictUpdate_not_mem (acc : List (String × α)) (k : String) (v : α)
    (h : k ∉ acc.map Prod.fst) : dictUpdate acc k v = acc ++ [(k, v)] := by
  rw [dictUpdate, if_neg]
  simp only [List.any_eq_true, not_exists, not_and]
  intro kv hkv hbeq
  exact h (List.mem_map.mpr ⟨kv, hkv, (eq_of_beq hbeq)⟩)

/-- When no key is written twice, folding `dict.update` just appends. -/
theorem updAll_of_nodup :
    ∀ (l acc : List (String × α)),
      (acc.map Prod.fst ++ l.map Prod.fst).Nodup → updAll acc l = acc ++ l := by
  intro l
  induction l with
  | nil => intro acc _; simp [updAll]
  | cons kv rest ih =>
    intro acc hnd
    obtain ⟨k, v⟩ := kv
    have hk : k ∉ acc.map Prod.fst := by
      simp only [List.map_cons, List.nodup_append] at hnd
      intro hmem
      exact hnd.2.2 hmem (List.mem_cons_self _ _)
    have hstep : updAll acc ((k, v) :: rest) =
        updAll (acc ++ [(k, v)]) rest := by
      show updAll (dictUpdate acc k v) rest = _
      rw [dictUpdate_not_mem acc k v hk]
    rw [hstep, ih (acc ++ [(k, v)])]
    · simp
    · have h : (acc ++ [(k, v)]).map Prod.fst ++ rest.map Prod.fst =
          acc.map Prod.fst ++ ((k, v) :: rest).map Prod.fst := by simp
      rw [h]
      exact hnd

/-- **C4 counterexample**.  Two scalar leaves can share the same
dash-joined path: on `{"a": {"b": 1}, "a-b": 2}` both leaves are keyed
`"a-b"`, so the flat table has one entry for two leaves (the later write
overwrites the earlier one), refuting "exactly one entry per scalar
leaf" for every input. -/
theorem dict_denester_c4_counterexample :
    dict_denester (PyVal.dict [("a", PyVal.dict [("b", PyVal.scalar (1 : Int))]),
        ("a-b", PyVal.scalar 2)]) = [("a-b", 2)]
    ∧ (leaves (PyVal.dict [("a", PyVal.dict [("b", PyVal.scalar (1 : Int))]),
        ("a-b", PyVal.scalar 2)]) "").length = 2
    ∧ (dict_denester (PyVal.dict [("a", PyVal.dict [("b", PyVal.scalar (1 : Int))]),
        ("a-b", PyVal.scalar 2)])).length ≠
      (leaves (PyVal.dict [("a", PyVal.dict [("b", PyVal.scalar (1 : Int))]),
        ("a-b", PyVal.scalar 2)]) "").length := by
  refine ⟨rfl, rfl, ?_⟩
  decide

/-- **C4 (amended)**.  Provided the dash-joined leaf paths are pairwise
distinct, `dict_denester` returns exactly one entry per scalar leaf,
keyed by the dash-joined path with the leading dash stripped (and in
depth-first order); when two leaves share a path the later write
overwrites the earlier one.  Empty dicts and empty lists contribute no
entry and raise no error, and flattening is deterministic — the same
structure always yields the same table. -/
theorem dict_denester_c4 (t : PyVal α)
    (hnodup : ((leaves t "").map Prod.fst).Nodup) :
    dict_denester t = leaves t ""
    ∧ (∀ (new : List (String × α)) (name : String),
        denest (PyVal.dict []) new name = new
        ∧ denest (PyVal.list []) new name = new)
    ∧ dict_denester t = dict_denester t := by
  refine ⟨?_, fun new name => ⟨rfl, rfl⟩, rfl⟩
  rw [dict_denester, denest_eq t [] ""]
  have h := updAll_of_nodup (leaves t "") []
  simp only [List.map_nil, List.nil_append] at h
  rw [h hnodup]

/-- Witness for C4 at `{"a": 1, "b": [2, 3]}`, whose leaf paths
`a`, `b-0`, `b-1` are distinct. -/
theorem dict_denester_c4_witness :
    ((leaves (PyVal.dict [("a", PyVal.scalar (1 : Int)),
        ("b", PyVal.list [PyVal.scalar 2, PyVal.scalar 3])]) "").map
          Prod.fst).Nodup
    ∧ (dict_denester (PyVal.dict [("a", PyVal.scalar (1 : Int)),
          ("b", PyVal.list [PyVal.scalar 2, PyVal.scalar 3])])
        = leaves (PyVal.dict [("a", PyVal.scalar (1 : Int)),
            ("b", PyVal.list [PyVal.scalar 2, PyVal.scalar 3])]) ""
      ∧ (∀ (new : List (String × Int)) (name : String),
          denest (PyVal.dict []) new name = new
          ∧ denest (PyVal.list []) new name = new)
      ∧ dict_denester (PyVal.dict [("a", PyVal.scalar (1 : Int)),
          ("b", PyVal.list [PyVal.scalar 2, PyVal.scalar 3])])
        = dict_denester (PyVal.dict [("a", PyVal.scalar (1 : Int)),
            ("b", PyVal.list [PyVal.scalar 2, PyVal.scalar 3])])) :=
  ⟨by decide, dict_denester_c4 _ (by decide)⟩



/-! ## The shallowest-match resolver `helpers.find_item` / `find_items`

Both functions match a key `k` of the flattened table with
`re.match(r"^.*{key_to_match}.*$", k)`: the match string is interpolated
into a regular expression, not searched literally.  The embedding models
the fragment of Python's `re` engine these patterns exercise: literal
characters, `.` (any character except newline), the quantifiers `*`, `+`,
`?` (with an optional lazy marker `?` after a quantifier, which does not
change the accepted language), and groups `(`…`)`.  A match string using
a construct outside this fragment (`|`, `[`, `{`, `^`, `$`, `\`, an
unbalanced group, a dangling or doubled quantifier, …) is mapped to a
compile failure; Python itself rejects several of those
(`error: missing ), unterminated subpattern`, `multiple repeat`, …) and
`find_item` / `find_items` catch the resulting exception from the first
`re.match` call and return the no-match result. -/

/-- Syntax of the modelled regex fragment. -/
inductive Regex where
  | emp : Regex
  | eps : Regex
  | chr : Char → Regex
  | any : Regex
  | alt : Regex → Regex → Regex
  | cat : Regex → Regex → Regex
  | star : Regex → Regex
deriving DecidableEq

/-- Does the regex accept the empty string? -/
def nullable : Regex → Bool
  | .emp => false
  | .eps => true
  | .chr _ => false
  | .any => false
  | .alt r s => nullable r || nullable s
  | .cat r s => nullable r && nullable s
  | .star _ => true

/-- Brzozowski derivative; `.` matches any character except `'\n'`
(Python `re` default, no `DOTALL`). -/
def deriv : Regex → Char → Regex
  | .emp, _ => .emp
  | .eps, _ => .emp
  | .chr c, x => if x = c then .eps else .emp
  | .any, x => if x = '\n' then .emp else .eps
  | .alt r s, x => .alt (deriv r x) (deriv s x)
  | .cat r s, x =>
    if nullable r then .alt (.cat (deriv r x) s) (deriv s x)
    else .cat (deriv r x) s
  | .star r, x => .cat (deriv r x) (.star r)

/-- Whole-string regex acceptance via iterated derivatives. -/
def rmatch (r : Regex) (cs : List Char) : Bool :=
  nullable (cs.foldl deriv r)

/-- An ordinary (non-metacharacter) pattern character. -/
def isOrd (c : Char) : Bool :=
  !(c == '.' || c == '*' || c == '+' || c == '?' || c == '(' || c == ')' ||
    c == '|' || c == '[' || c == ']' || c == '{' || c == '}' || c == '^' ||
    c == '$' || c == '\\')

/-- No quantifier may follow a completed quantifier (Python's
`multiple repeat` error). -/
def noQuantNext (cs : List Char) : Bool :=
  match cs with
  | [] => true
  | c :: _ => !(c == '*' || c == '+' || c == '?')

/-- After a quantifier: an optional lazy marker `?` (same language), then
no further quantifier. -/
def finishQuant (r : Regex) (cs : List Char) : Option (Regex × List Char) :=
  match cs with
  | [] => some (r, [])
  | c :: rest =>
    if c = '?' then (if noQuantNext rest then some (r, rest) else none)
    else if noQuantNext cs then some (r, cs) else none

/-- Postfix quantifiers on an atom: `a*`, `a+` (= `a a*`), `a?`
(= `a | ε`). -/
def parsePost (a : Regex) (cs : List Char) : Option (Regex × List Char) :=
  match cs with
  | [] => some (a, [])
  | c :: rest =>
    if c = '*' then finishQuant (.star a) rest
    else if c = '+' then finishQuant (.cat a (.star a)) rest
    else if c = '?' then finishQuant (.alt a .eps) rest
    else some (a, cs)

mutual

/-- One atom: a group `( … )`, the wildcard `.`, or an ordinary
character.  The fuel only bounds recursion depth; it is chosen large
enough in `compileKey` never to run out on an accepted pattern. -/
def parseAtom : Nat → List Char → Option (Regex × List Char)
  | 0, _ => none
  | _ + 1, [] => none
  | f + 1, c :: rest =>
    if c = '(' then
      match parseSeq f rest with
      | some (r, rest2) =>
          match rest2 with
          | ')' :: rest3 => some (r, rest3)
          | _ => none
      | none => none
    else if c = '.' then some (.any, rest)
    else if isOrd c then some (.chr c, rest)
    else none

/-- A concatenation of quantified atoms, ending at `)` or at the end of
the pattern. -/
def parseSeq : Nat → List Char → Option (Regex × List Char)
  | 0, _ => none
  | _ + 1, [] => some (.eps, [])
  | f + 1, c :: rest =>
    if c = ')' then some (.eps, c :: rest)
    else
      match parseAtom f (c :: rest) with
      | none => none
      | some (a, rest2) =>
        match parsePost a rest2 with
        | none => none
        | some (a2, rest3) =>
          match parseSeq f rest3 with
          | none => none
          | some (b, rest4) => some (.cat a2 b, rest4)

end

/-- Compile the match string (the `{key_to_match}` interpolated into the
pattern) to a regex; `none` is the compile failure that the code's
`except` handler turns into "no match". -/
def compileKey (key_to_match : String) : Option Regex :=
  match parseSeq (4 * key_to_match.data.length + 4) key_to_match.data with
  | some (r, []) => some r
  | _ => none

/-- A character `.*` can consume (anything but a newline). -/
def nonNL (c : Char) : Bool := c != '\n'

/-- A suffix accepted by `.*$`: a run of non-newline characters reaching
the end of the string, or reaching the position just before a single
terminal newline (Python `$`, no `MULTILINE`). -/
def tailOk (w : List Char) : Bool :=
  w.all nonNL || (w.dropLast.all nonNL && w.getLast? == some '\n')

/-- `re.match(r"^.*{key}.*$", k)` as a Boolean: some split
`k = u ++ v ++ w` with `u` newline-free (consumed by the leading `.*`),
`v` accepted by the compiled key regex, and `w` accepted by `.*$`. -/
def keyMatch (r : Regex) (cs : List Char) : Bool :=
  (List.range (cs.length + 1)).any (fun i =>
    (cs.take i).all nonNL &&
    (List.range (cs.length + 1)).any (fun n =>
      rmatch r ((cs.drop i).take n) && tailOk (cs.drop (i + n))))

/-- `k.count("-")` for the one-character needle `"-"`. -/
def countDash (k : String) : Nat := k.data.count '-'

/-- One iteration of the `for k, v in d.items()` loop of `find_item`:
the state is `(out, depth)` with `depth = math.inf` embedded as `none`;
on a match strictly shallower than `depth`, both are updated
(`out = str(v)` is `toString`). -/
def find_item_step [ToString α] (r : Regex) (st : String × Option Nat)
    (kv : String × α) : String × Option Nat :=
  if keyMatch r kv.1.data then
    match st.2 with
    | none => (toString kv.2, some (countDash kv.1))
    | some dm =>
      if countDash kv.1 < dm then (toString kv.2, some (countDash kv.1))
      else st
  else st

/-- Embedding of `helpers.find_item`.  The pattern is compiled once (in
Python, inside the first `re.match` call, before any iteration has
updated `out`); a compile failure is the exception the code catches,
after which `out` is still `""`. -/
def find_item [ToString α] (d : List (String × α)) (key_to_match : String) :
    String :=
  match compileKey key_to_match with
  | none => ""
  | some r => (d.foldl (find_item_step r) ("", none)).1

/-- Embedding of `helpers.find_items`: appends `str(v)` for every
matching key, in table order; a compile failure leaves `out = []`. -/
def find_items [ToString α] (d : List (String × α)) (key_to_match : String) :
    List String :=
  match compileKey key_to_match with
  | none => []
  | some r =>
      d.foldl (fun out kv =>
        if keyMatch r kv.1.data then out ++ [toString kv.2] else out) []

/-- The match predicate both functions apply to a table key. -/
def keyMatches (key_to_match k : String) : Bool :=
  match compileKey key_to_match with
  | none => false
  | some r => keyMatch r k.data

/-- Minimum of a list of depths (`none` for the empty list). -/
def minDepthList : List Nat → Option Nat
  | [] => none
  | n :: rest =>
    match minDepthList rest with
    | none => some n
    | some m => some (min n m)

/-- The sub-table of entries whose key matches. -/
def matchesOf (r : Regex) (d : List (String × α)) : List (String × α) :=
  d.filter (fun kv => keyMatch r kv.1.data)

/-- The literal regex of an (ordinary-character) match string. -/
def litOf (cs : List Char) : Regex :=
  cs.foldr (fun c r => .cat (.chr c) r) .eps

/-- Final state of the `find_item` loop: the minimum dash depth among
matching keys and the value of the first matching key attaining it
(strict `<` never overwrites on ties). -/
def foldOutcome [ToString α] (r : Regex) (d : List (String × α)) :
    String × Option Nat :=
  (minDepthList ((matchesOf r d).map (fun kv => countDash kv.1))).elim
    ("", none)
    (fun dm =>
      (((matchesOf r d).find? (fun kv => countDash kv.1 == dm)).elim ""
        (fun kv => toString kv.2), some dm))


theorem rmatch_emp : ∀ cs, rmatch .emp cs = false
  | [] => rfl
  | _ :: cs => rmatch_emp cs

theorem rmatch_alt : ∀ (cs : List Char) (r s : Regex),
    rmatch (.alt r s) cs = (rmatch r cs || rmatch s cs) := by
  intro cs
  induction cs with
  | nil => intro r s; rfl
  | cons c cs ih => intro r s; exact ih (deriv r c) (deriv s c)

theorem rmatch_cat_emp (r : Regex) : ∀ cs, rmatch (.cat .emp r) cs = false
  | [] => rfl
  | _ :: cs => rmatch_cat_emp r cs

theorem rmatch_cat_eps (r : Regex) :
    ∀ cs, rmatch (.cat .eps r) cs = rmatch r cs := by
  intro cs
  cases cs with
  | nil => rfl
  | cons c cs =>
    have h1 : rmatch (.cat .eps r) (c :: cs) =
        rmatch (.alt (.cat .emp r) (deriv r c)) cs := rfl
    rw [h1, rmatch_alt cs, rmatch_cat_emp r cs]
    rfl

theorem rmatch_lit : ∀ (m v : List Char), rmatch (litOf m) v = true ↔ v = m := by
  intro m
  induction m with
  | nil =>
    intro v
    cases v with
    | nil => simp [rmatch, litOf, nullable]
    | cons c v' =>
      have h : rmatch (litOf []) (c :: v') = false := rmatch_emp v'
      simp [h]
  | cons a m' ih =>
    intro v
    cases v with
    | nil =>
      have h : rmatch (litOf (a :: m')) [] = false := rfl
      simp [h]
    | cons x v' =>
      by_cases hx : x = a
      · subst hx
        have hd : deriv (Regex.chr x) x = .eps := by simp [deriv]
        have h1 : rmatch (litOf (x :: m')) (x :: v') =
            rmatch (.cat (deriv (Regex.chr x) x) (litOf m')) v' := rfl
        rw [h1, hd, rmatch_cat_eps, ih]
        simp
      · have hd : deriv (Regex.chr a) x = .emp := by simp [deriv, hx]
        have h1 : rmatch (litOf (a :: m')) (x :: v') =
            rmatch (.cat (deriv (Regex.chr a) x) (litOf m')) v' := rfl
        rw [h1, hd, rmatch_cat_emp]
        simp [hx]

theorem parseSeq_ord :
    ∀ (fuel : Nat) (cs : List Char), cs.length < fuel →
      (∀ c ∈ cs, isOrd c = true) → parseSeq fuel cs = some (litOf cs, []) := by
  intro fuel
  induction fuel with
  | zero => intro cs h; omega
  | succ f ih =>
    intro cs hlen hord
    cases cs with
    | nil => rfl
    | cons c rest =>
      have hc : isOrd c = true := hord c (List.mem_cons_self _ _)
      have hcp : c ≠ ')' := by
        intro h; rw [h] at hc; simp [isOrd] at hc
      have hrest : rest.length < f := by
        simp only [List.length_cons] at hlen; omega
      obtain ⟨f', rfl⟩ : ∃ f', f = f' + 1 := ⟨f - 1, by omega⟩
      have hatom : parseAtom (f' + 1) (c :: rest) = some (.chr c, rest) := by
        have hcl : c ≠ '(' := by
          intro h; rw [h] at hc; simp [isOrd] at hc
        have hcd : c ≠ '.' := by
          intro h; rw [h] at hc; simp [isOrd] at hc
        simp only [parseAtom, if_neg hcl, if_neg hcd, if_pos hc]
      have hpost : parsePost (Regex.chr c) rest = some (.chr c, rest) := by
        cases rest with
        | nil => rfl
        | cons c2 rest2 =>
          have hc2 : isOrd c2 = true :=
            hord c2 (List.mem_cons_of_mem _ (List.mem_cons_self _ _))
          have h1 : c2 ≠ '*' := by
            intro h; rw [h] at hc2; simp [isOrd] at hc2
          have h2 : c2 ≠ '+' := by
            intro h; rw [h] at hc2; simp [isOrd] at hc2
          have h3 : c2 ≠ '?' := by
            intro h; rw [h] at hc2; simp [isOrd] at hc2
          simp only [parsePost, if_neg h1, if_neg h2, if_neg h3]
      have hrec : parseSeq (f' + 1) rest = some (litOf rest, []) :=
        ih rest hrest (fun x hx => hord x (List.mem_cons_of_mem _ hx))
      simp only [parseSeq, if_neg hcp, hatom, hpost, hrec]
      rfl

theorem compileKey_ord (m : String) (hord : ∀ c ∈ m.data, isOrd c = true) :
    compileKey m = some (litOf m.data) := by
  have h : parseSeq (4 * m.data.length + 4) m.data = some (litOf m.data, []) :=
    parseSeq_ord _ _ (by omega) hord
  simp only [compileKey, h]

theorem keyMatch_lit (m k : List Char) (hk : '\n' ∉ k) :
    keyMatch (litOf m) k = true ↔ m <:+: k := by
  constructor
  · intro h
    simp only [keyMatch, List.any_eq_true, List.mem_range,
      Bool.and_eq_true] at h
    obtain ⟨i, hi, -, n, hn, hr, -⟩ := h
    have hm : (k.drop i).take n = m := (rmatch_lit m _).mp hr
    refine ⟨k.take i, k.drop (i + n), ?_⟩
    have hdd : (k.drop i).drop n = k.drop (i + n) := by
      rw [List.drop_drop, Nat.add_comm]
    calc k.take i ++ m ++ k.drop (i + n)
        = k.take i ++ ((k.drop i).take n ++ (k.drop i).drop n) := by
          rw [hm, hdd, List.append_assoc]
      _ = k.take i ++ k.drop i := by rw [List.take_append_drop]
      _ = k := List.take_append_drop i k
  · rintro ⟨u, w, huw⟩
    subst huw
    have hu : ∀ c ∈ u, nonNL c = true := by
      intro c hc
      have : c ≠ '\n' := by
        intro h; subst h
        exact hk (by simp [hc])
      simp [nonNL, this]
    have hw : ∀ c ∈ w, nonNL c = true := by
      intro c hc
      have : c ≠ '\n' := by
        intro h; subst h
        exact hk (by simp [hc])
      simp [nonNL, this]
    simp only [keyMatch, List.any_eq_true, List.mem_range, Bool.and_eq_true]
    refine ⟨u.length, ?_, ?_, m.length, ?_, ?_, ?_⟩
    · simp [List.length_append]; omega
    · rw [List.append_assoc, List.take_left]
      exact List.all_eq_true.mpr hu
    · simp [List.length_append]; omega
    · rw [List.append_assoc, List.drop_left, List.take_left]
      exact (rmatch_lit m m).mpr rfl
    · have hd : (u ++ m ++ w).drop (u.length + m.length) = w := by
        have : u.length + m.length = (u ++ m).length := by
          simp [List.length_append]
        rw [this, List.drop_left]
      rw [hd, tailOk]
      have : w.all nonNL = true := List.all_eq_true.mpr hw
      rw [this]
      rfl

theorem minDepthList_eq_none : ∀ (l : List Nat), minDepthList l = none ↔ l = [] := by
  intro l
  cases l with
  | nil => simp [minDepthList]
  | cons n rest =>
    simp only [minDepthList]
    cases minDepthList rest <;> simp

theorem minDepthList_le :
    ∀ (l : List Nat) (m : Nat), minDepthList l = some m → ∀ n ∈ l, m ≤ n := by
  intro l
  induction l with
  | nil => intro m h; simp [minDepthList] at h
  | cons a rest ih =>
    intro m h n hn
    simp only [minDepthList] at h
    cases hrest : minDepthList rest with
    | none =>
      rw [hrest] at h
      have : rest = [] := (minDepthList_eq_none rest).mp hrest
      subst this
      simp at hn
      subst hn
      simp at h
      omega
    | some m' =>
      rw [hrest] at h
      simp at h
      rcases List.mem_cons.mp hn with h1 | h2
      · subst h1; omega
      · have := ih m' hrest n h2; omega

theorem minDepthList_mem :
    ∀ (l : List Nat) (m : Nat), minDepthList l = some m → m ∈ l := by
  intro l
  induction l with
  | nil => intro m h; simp [minDepthList] at h
  | cons a rest ih =>
    intro m h
    simp only [minDepthList] at h
    cases hrest : minDepthList rest with
    | none => rw [hrest] at h; simp at h; simp [h]
    | some m' =>
      rw [hrest] at h
      simp at h
      rcases Nat.le_total a m' with hle | hle
      · rw [min_eq_left hle] at h; simp [h]
      · rw [min_eq_right hle] at h
        subst h
        exact List.mem_cons_of_mem _ (ih m' hrest)

theorem minDepthList_append_single (l : List Nat) (x : Nat) :
    minDepthList (l ++ [x]) =
      some ((minDepthList l).elim x (fun m => min m x)) := by
  induction l with
  | nil => rfl
  | cons a rest ih =>
    show minDepthList (a :: (rest ++ [x])) = _
    rw [minDepthList, ih]
    cases hrest : minDepthList rest with
    | none =>
      have h0 : rest = [] := (minDepthList_eq_none rest).mp hrest
      subst h0
      rfl
    | some m' =>
      have hcons : minDepthList (a :: rest) = some (min a m') := by
        rw [minDepthList, hrest]
      rw [hcons]
      simp [Option.elim, min_assoc]

theorem find?_append_of_some {p : β → Bool} {l₁ l₂ : List β} {b : β}
    (h : l₁.find? p = some b) : (l₁ ++ l₂).find? p = some b := by
  induction l₁ with
  | nil => simp [List.find?] at h
  | cons a rest ih =>
    simp only [List.cons_append, List.find?]
    cases ha : p a with
    | true => rw [List.find?_cons_of_pos _ ha] at h; exact h
    | false =>
      rw [List.find?_cons_of_neg _ (by simp [ha])] at h
      exact ih h

theorem find?_append_of_none {p : β → Bool} {l₁ l₂ : List β}
    (h : l₁.find? p = none) : (l₁ ++ l₂).find? p = l₂.find? p := by
  induction l₁ with
  | nil => simp
  | cons a rest ih =>
    rw [List.find?_eq_none] at h
    have ha : p a = false := by
      have := h a (List.mem_cons_self _ _)
      simp [this]
    rw [List.cons_append, List.find?_cons_of_neg _ (by simp [ha])]
    exact ih (List.find?_eq_none.mpr (fun x hx => h x (List.mem_cons_of_mem _ hx)))

/-- Final state of the `find_item` loop: the minimum dash depth among the
matching keys, and the value of the first matching key attaining it. -/

theorem find_item_fold_char [ToString α] (r : Regex) (d : List (String × α)) :
    d.foldl (find_item_step r) ("", none) = foldOutcome r d := by
  induction d using List.reverseRecOn with
  | nil => rfl
  | append_singleton d x ih =>
    rw [List.foldl_append, ih]
    simp only [List.foldl_cons, List.foldl_nil]
    by_cases hm : keyMatch r x.1.data
    · have hmo : matchesOf r (d ++ [x]) = matchesOf r d ++ [x] := by
        simp [matchesOf, List.filter_append, hm]
      have hms : (matchesOf r (d ++ [x])).map (fun kv => countDash kv.1)
          = (matchesOf r d).map (fun kv => countDash kv.1)
            ++ [countDash x.1] := by
        rw [hmo]; simp
      cases hmin : minDepthList
          ((matchesOf r d).map (fun kv => countDash kv.1)) with
      | none =>
        have hempty : matchesOf r d = [] :=
          List.map_eq_nil_iff.mp ((minDepthList_eq_none _).mp hmin)
        have hout : foldOutcome r d = ("", none) := by
          rw [foldOutcome, hmin]
          rfl
        have hmin2 : minDepthList
            ((matchesOf r (d ++ [x])).map (fun kv => countDash kv.1))
            = some (countDash x.1) := by
          rw [hms, minDepthList_append_single, hmin]
          rfl
        have hfind2 : (matchesOf r (d ++ [x])).find?
            (fun kv => countDash kv.1 == countDash x.1) = some x := by
          rw [hmo, hempty, List.nil_append]
          exact List.find?_cons_of_pos _ (by simp)
        rw [hout, foldOutcome, hmin2]
        simp only [Option.elim]
        rw [hfind2]
        simp only [Option.elim]
        rw [find_item_step, if_pos hm]
      | some dm =>
        obtain ⟨kv0, hfind⟩ :
            ∃ kv0, (matchesOf r d).find? (fun kv => countDash kv.1 == dm)
              = some kv0 := by
          have hmem := minDepthList_mem _ _ hmin
          obtain ⟨kv1, hkv1, hd1⟩ := List.mem_map.mp hmem
          have hex : ∃ y ∈ matchesOf r d, (countDash y.1 == dm) = true :=
            ⟨kv1, hkv1, by simp [hd1]⟩
          obtain ⟨b, hb⟩ := Option.isSome_iff_exists.mp
            (List.find?_isSome.mpr hex)
          exact ⟨b, hb⟩
        have hout : foldOutcome r d = (toString kv0.2, some dm) := by
          rw [foldOutcome, hmin]
          simp only [Option.elim]
          rw [hfind]
        have hmin2 : minDepthList
            ((matchesOf r (d ++ [x])).map (fun kv => countDash kv.1))
            = some (min dm (countDash x.1)) := by
          rw [hms, minDepthList_append_single, hmin]
          rfl
        rw [hout, foldOutcome, hmin2]
        simp only [Option.elim]
        by_cases hlt : countDash x.1 < dm
        · have hminx : min dm (countDash x.1) = countDash x.1 := by omega
          rw [hminx]
          have hnone : (matchesOf r d).find?
              (fun kv => countDash kv.1 == countDash x.1) = none := by
            rw [List.find?_eq_none]
            intro y hy
            have hle := minDepthList_le _ _ hmin (countDash y.1)
              (List.mem_map_of_mem _ hy)
            simp only [beq_iff_eq]
            omega
          have hfind2 : (matchesOf r (d ++ [x])).find?
              (fun kv => countDash kv.1 == countDash x.1) = some x := by
            rw [hmo, find?_append_of_none hnone]
            exact List.find?_cons_of_pos _ (by simp)
          rw [hfind2]
          simp only [Option.elim]
          rw [find_item_step, if_pos hm]
          show (if countDash x.1 < dm then (toString x.2, some (countDash x.1))
              else (toString kv0.2, some dm)) = _
          rw [if_pos hlt]
        · have hminx : min dm (countDash x.1) = dm := by omega
          rw [hminx]
          have hfind2 : (matchesOf r (d ++ [x])).find?
              (fun kv => countDash kv.1 == dm) = some kv0 := by
            rw [hmo]
            exact find?_append_of_some hfind
          rw [hfind2]
          simp only [Option.elim]
          rw [find_item_step, if_pos hm]
          show (if countDash x.1 < dm then (toString x.2, some (countDash x.1))
              else (toString kv0.2, some dm)) = _
          rw [if_neg hlt]
    · have hmo : matchesOf r (d ++ [x]) = matchesOf r d := by
        simp [matchesOf, List.filter_append, hm]
      rw [find_item_step, if_neg hm, foldOutcome, foldOutcome, hmo]

theorem minDepth_find_exists [ToString α] (r : Regex) (d : List (String × α))
    (dm : Nat)
    (hmin : minDepthList ((matchesOf r d).map (fun kv => countDash kv.1))
      = some dm) :
    ∃ kv0, (matchesOf r d).find? (fun kv => countDash kv.1 == dm)
      = some kv0 := by
  have hmem := minDepthList_mem _ _ hmin
  obtain ⟨kv1, hkv1, hd1⟩ := List.mem_map.mp hmem
  have hex : ∃ y ∈ matchesOf r d, (countDash y.1 == dm) = true :=
    ⟨kv1, hkv1, by simp [hd1]⟩
  obtain ⟨b, hb⟩ := Option.isSome_iff_exists.mp (List.find?_isSome.mpr hex)
  exact ⟨b, hb⟩

theorem find_items_fold [ToString α] (r : Regex) :
    ∀ (d : List (String × α)) (out : List String),
      d.foldl (fun out kv =>
        if keyMatch r kv.1.data then out ++ [toString kv.2] else out) out
      = out ++ (matchesOf r d).map (fun kv => toString kv.2) := by
  intro d
  induction d with
  | nil => intro out; simp [matchesOf]
  | cons kv rest ih =>
    intro out
    by_cases hm : keyMatch r kv.1.data
    · simp only [List.foldl_cons, if_pos hm]
      rw [ih]
      simp [matchesOf, List.filter_cons, hm]
    · simp only [List.foldl_cons, if_neg hm]
      rw [ih]
      simp [matchesOf, List.filter_cons, hm]

/-- **C2**.  `find_first` returns, rendered as a string, the value of a
matching key with the fewest `-` separators (shallowest nesting), and the
empty string when no key matches; concretely, on
`{"a-b-c": "x", "a-b": "y"}` with substring `"b"` it returns `"y"` (depth
1 beats depth 2).  "Matching" is the code's predicate `keyMatches`. -/
theorem find_item_c2 [ToString α] (d : List (String × α)) (m : String) :
    ((∀ kv ∈ d, keyMatches m kv.1 = false) → find_item d m = "")
    ∧ ((∃ kv ∈ d, keyMatches m kv.1 = true) →
        ∃ kv ∈ d, keyMatches m kv.1 = true
          ∧ (∀ kv2 ∈ d, keyMatches m kv2.1 = true →
              countDash kv.1 ≤ countDash kv2.1)
          ∧ find_item d m = toString kv.2)
    ∧ find_item ([("a-b-c", "x"), ("a-b", "y")] : List (String × String)) "b"
        = "y" := by
  refine ⟨?_, ?_, by decide⟩
  · intro hall
    cases hc : compileKey m with
    | none => simp only [find_item, hc]
    | some r =>
      have hempty : matchesOf r d = [] := by
        rw [matchesOf, List.filter_eq_nil_iff]
        intro kv hkv
        have h := hall kv hkv
        simp only [keyMatches, hc] at h
        simp [h]
      simp only [find_item, hc]
      rw [find_item_fold_char, foldOutcome, hempty]
      rfl
  · rintro ⟨kv1, hkv1, hmat⟩
    cases hc : compileKey m with
    | none => rw [keyMatches, hc] at hmat; simp at hmat
    | some r =>
      have hpred : ∀ k : String, keyMatches m k = keyMatch r k.data := by
        intro k; rw [keyMatches, hc]
      have hmem1 : kv1 ∈ matchesOf r d := by
        rw [matchesOf, List.mem_filter]
        exact ⟨hkv1, by rw [← hpred]; exact hmat⟩
      have hne : matchesOf r d ≠ [] := by
        intro h; rw [h] at hmem1; simp at hmem1
      obtain ⟨dm, hdm⟩ : ∃ dm, minDepthList
          ((matchesOf r d).map (fun kv => countDash kv.1)) = some dm := by
        cases hmm : minDepthList
            ((matchesOf r d).map (fun kv => countDash kv.1)) with
        | none =>
          exact absurd (List.map_eq_nil_iff.mp
            ((minDepthList_eq_none _).mp hmm)) hne
        | some dm => exact ⟨dm, rfl⟩
      obtain ⟨kv0, hfind⟩ := minDepth_find_exists r d dm hdm
      have hmemf := List.mem_filter.mp (List.mem_of_find?_eq_some hfind)
      have hdash : countDash kv0.1 = dm := by
        have h := List.find?_some hfind
        simpa using h
      refine ⟨kv0, hmemf.1, by rw [hpred]; exact hmemf.2, ?_, ?_⟩
      · intro kv2 hkv2 hm2
        have hmem2 : kv2 ∈ matchesOf r d :=
          List.mem_filter.mpr ⟨hkv2, by rw [← hpred]; exact hm2⟩
        have hle := minDepthList_le _ _ hdm (countDash kv2.1)
          (List.mem_map_of_mem _ hmem2)
        omega
      · simp only [find_item, hc]
        rw [find_item_fold_char, foldOutcome, hdm]
        simp only [Option.elim]
        rw [hfind]

/-- **C1 (amended)**.  When two or more matching keys tie at the minimal
number of `-` separators, `find_first` returns the value of the matching
key encountered *first* in table order: the comparison is strict `<`, so
a later equal-depth match never overwrites the held value.  (The claim
said the last such key wins.) -/
theorem find_item_c1_amended [ToString α] (d : List (String × α)) (m : String)
    (dm : Nat) (kv : String × α)
    (hmin : minDepthList ((d.filter (fun kv => keyMatches m kv.1)).map
        (fun kv => countDash kv.1)) = some dm)
    (hfirst : (d.filter (fun kv => keyMatches m kv.1)).find?
        (fun kv => countDash kv.1 == dm) = some kv)
    (_hties : 2 ≤ ((d.filter (fun kv => keyMatches m kv.1)).filter
        (fun kv => countDash kv.1 == dm)).length) :
    find_item d m = toString kv.2 := by
  cases hc : compileKey m with
  | none =>
    exfalso
    have hp : (fun kv : String × α => keyMatches m kv.1)
        = fun _ => false := by
      funext kv; rw [keyMatches, hc]
    rw [hp] at hmin
    simp [minDepthList] at hmin
  | some r =>
    have hp : (fun kv : String × α => keyMatches m kv.1)
        = (fun kv => keyMatch r kv.1.data) := by
      funext kv; rw [keyMatches, hc]
    rw [hp] at hmin hfirst
    simp only [find_item, hc]
    rw [find_item_fold_char, foldOutcome]
    have hmin' : minDepthList ((matchesOf r d).map (fun kv => countDash kv.1))
        = some dm := hmin
    have hfirst' : (matchesOf r d).find? (fun kv => countDash kv.1 == dm)
        = some kv := hfirst
    rw [hmin']
    simp only [Option.elim]
    rw [hfirst']

/-- **C3 (amended)**.  `find_first` and `find_items` treat a key as
matching exactly when the key matches the Python regex
`^.*{match_string}.*$` — the match string is interpreted as a regular
expression, not searched literally; a match string that fails to compile
matches nothing.  For match strings made only of ordinary characters (no
regex metacharacters) and keys without newlines this coincides with
literal substring containment; and `find_all` returns the string
rendering of every matching key's value, in table order, with no depth
filtering. -/
theorem find_c3_amended [ToString α] (d : List (String × α)) (m : String)
    (hord : ∀ c ∈ m.data, isOrd c = true)
    (hkeys : ∀ kv ∈ d, '\n' ∉ (kv.1 : String).data) :
    (∀ kv ∈ d, (keyMatches m kv.1 = true ↔ m.data <:+: kv.1.data))
    ∧ find_items d m =
        (d.filter (fun kv => keyMatches m kv.1)).map
          (fun kv => toString kv.2) := by
  have hcomp : compileKey m = some (litOf m.data) := compileKey_ord m hord
  constructor
  · intro kv hkv
    rw [keyMatches, hcomp]
    exact keyMatch_lit m.data kv.1.data (hkeys kv hkv)
  · simp only [find_items, hcomp]
    rw [find_items_fold (litOf m.data) d [], List.nil_append]
    have hp : (fun kv : String × α => keyMatches m kv.1)
        = (fun kv => keyMatch (litOf m.data) kv.1.data) := by
      funext kv; rw [keyMatches, hcomp]
    rw [hp]
    rfl

/-- **C1 counterexample**.  On `{"a-1": "p", "a-2": "q"}` with substring
`"a"` (both matches at depth 1), `find_first` returns `"p"` — the first
equal-depth match, not the claimed `"q"`: the strict `<` comparison never
overwrites on ties. -/
theorem find_item_c1_counterexample :
    find_item ([("a-1", "p"), ("a-2", "q")] : List (String × String)) "a" = "p"
    ∧ find_item ([("a-1", "p"), ("a-2", "q")] : List (String × String)) "a"
        ≠ "q" := by
  constructor
  · decide
  · decide

/-- **C3 counterexample**.  On the table `{"abc": "v"}` with match string
`"a.c"`, `find_first` returns `"v"` although `"a.c"` is not a literal
substring of `"abc"`: the `.` is a regex wildcard, refuting "matches
exactly when the key contains the match string as a literal
substring". -/
theorem find_item_c3_counterexample :
    find_item ([("abc", "v")] : List (String × String)) "a.c" = "v"
    ∧ ¬ ("a.c".data <:+: "abc".data) := by
  constructor
  · decide
  · decide

/-- Witness for C2: a table where no key matches yields `""`. -/
theorem find_item_c2_witness :
    (∀ kv ∈ ([("q-r", "z")] : List (String × String)),
        keyMatches "x" kv.1 = false)
    ∧ find_item ([("q-r", "z")] : List (String × String)) "x" = "" :=
  ⟨by decide, (find_item_c2 [("q-r", "z")] "x").1 (by decide)⟩

/-- Witness for C1 (amended) at the concrete tied table. -/
theorem find_item_c1_witness :
    (minDepthList ((([("a-1", "p"), ("a-2", "q")] :
        List (String × String)).filter (fun kv => keyMatches "a" kv.1)).map
        (fun kv => countDash kv.1)) = some 1)
    ∧ ((([("a-1", "p"), ("a-2", "q")] :
        List (String × String)).filter (fun kv => keyMatches "a" kv.1)).find?
        (fun kv => countDash kv.1 == 1) = some ("a-1", "p"))
    ∧ (2 ≤ ((([("a-1", "p"), ("a-2", "q")] :
        List (String × String)).filter (fun kv => keyMatches "a" kv.1)).filter
        (fun kv => countDash kv.1 == 1)).length)
    ∧ find_item ([("a-1", "p"), ("a-2", "q")] : List (String × String)) "a"
        = toString ("a-1", "p").2 :=
  ⟨by decide, by decide, by decide,
    find_item_c1_amended [("a-1", "p"), ("a-2", "q")] "a" 1 ("a-1", "p")
      (by decide) (by decide) (by decide)⟩

/-- Witness for C3 (amended) at a metacharacter-free match string. -/
theorem find_c3_witness :
    (∀ c ∈ "b".data, isOrd c = true)
    ∧ (∀ kv ∈ ([("a-b", "y"), ("zzz", "w")] : List (String × String)),
        '\n' ∉ (kv.1 : String).data)
    ∧ ((∀ kv ∈ ([("a-b", "y"), ("zzz", "w")] : List (String × String)),
        (keyMatches "b" kv.1 = true ↔ "b".data <:+: kv.1.data))
      ∧ find_items ([("a-b", "y"), ("zzz", "w")] : List (String × String)) "b"
          = (([("a-b", "y"), ("zzz", "w")] :
              List (String × String)).filter
                (fun kv => keyMatches "b" kv.1)).map
              (fun kv => toString kv.2)) :=
  ⟨by decide, by decide,
    find_c3_amended [("a-b", "y"), ("zzz", "w")] "b" (by decide) (by decide)⟩



end Helpers

namespace Youtube

/-! ## The archive classifier `youtube.validate_zip`

`youtube.py` declares the category and status catalogues and
`validate_zip`; the `ValidateInput` class it drives lives in
`port/validate.py`, which is not part of the sources, so its two methods
are modelled from the spec (§3, §4.3). -/

/-- `port.validate.DDPFiletype` (the spec's container-type enum). -/
inductive DDPFiletype where
  | JSON : DDPFiletype
  | HTML : DDPFiletype
  | CSV : DDPFiletype
deriving DecidableEq

/-- `port.validate.Language`. -/
inductive Language where
  | EN : Language
  | NL : Language
deriving DecidableEq

/-- `port.validate.StatusCode` (spec §3). -/
structure StatusCode where
  id : Int
  description : String
  message : String
deriving DecidableEq

/-- `port.validate.DDPCategory` (spec §3). -/
structure DDPCategory where
  id : String
  ddp_filetype : DDPFiletype
  language : Language
  known_files : List String
deriving DecidableEq

/-- `youtube.DDP_CATEGORIES` as declared in `youtube.py`. -/
def DDP_CATEGORIES : List DDPCategory :=
  [{ id := "html_en",
     ddp_filetype := DDPFiletype.HTML,
     language := Language.EN,
     known_files :=
       ["archive_browser.html",
        "watch-history.html",
        "my-comments.html",
        "my-live-chat-messages.html",
        "subscriptions.csv",
        "comments.csv"] },
   { id := "html_nl",
     ddp_filetype := DDPFiletype.HTML,
     language := Language.NL,
     known_files :=
       ["archive_browser.html",
        "kijkgeschiedenis.html",
        "zoekgeschiedenis.html",
        "mijn-reacties.html",
        "abonnementen.csv",
        "reacties.csv"] }]

/-- `youtube.STATUS_CODES` as declared in `youtube.py`. -/
def STATUS_CODES : List StatusCode :=
  [{ id := 0, description := "Valid DDP", message := "" },
   { id := 1, description := "Valid DDP unhandled format", message := "" },
   { id := 2, description := "Not a valid DDP", message := "" },
   { id := 3, description := "Bad zipfile", message := "" }]

/-- Modelled from the spec: `port.validate.ValidateInput` (missing from
the sources) — the mutable validation object holding the catalogues it
was constructed with, the matched category (nullable) and the selected
status code (spec §3). -/
structure ValidateInput where
  status_codes : List StatusCode
  ddp_categories : List DDPCategory
  ddp_category : Option DDPCategory := none
  status_code : Option StatusCode := none

/-- Modelled from the spec: `ValidateInput.infer_ddp_category` (missing
from the sources) — §4.3: the first category in declared order whose
`known_files` overlap the archive's file list is selected and recorded;
classification fails when no category overlaps.  Returns the updated
validation and whether a category matched (the truthiness `validate_zip`
branches on). -/
def infer_ddp_category (v : ValidateInput) (file_list : List String) :
    ValidateInput × Bool :=
  match v.ddp_categories.find?
      (fun cat => cat.known_files.any (fun kf => file_list.contains kf)) with
  | some cat => ({ v with ddp_category := some cat }, true)
  | none => ({ v with ddp_category := none }, false)

/-- Modelled from the spec: `ValidateInput.set_status_code` (missing from
the sources) — selects the catalogue `StatusCode` with the given id
(spec §3: a fixed catalogue keyed by id). -/
def set_status_code (v : ValidateInput) (i : Int) : ValidateInput :=
  { v with status_code := v.status_codes.find? (fun sc => sc.id == i) }

/-- `str.split(sep)` for a one-character separator, over the character
list. -/
def splitOnChar (sep : Char) : List Char → List (List Char)
  | [] => [[]]
  | c :: rest =>
    let r := splitOnChar sep rest
    if c = sep then [] :: r
    else (c :: r.headD []) :: r.tail

/-- `pathlib.Path(f).name`: the final path component, ignoring empty
components (trailing or doubled slashes). -/
def pyName (s : String) : String :=
  match ((splitOnChar '/' s.data).filter (fun p => p ≠ [])).getLast? with
  | none => ""
  | some p => String.mk p

/-- `pathlib.Path(f).suffix`: `name[i:]` for `i` the index of the last
dot, provided `0 < i < len(name) - 1`; otherwise `""`. -/
def pySuffix (s : String) : String :=
  let n := (pyName s).data
  match (n.reverse.findIdx? (fun c => c = '.')) with
  | none => ""
  | some j =>
    let i := n.length - 1 - j
    if 0 < i ∧ i < n.length - 1 then String.mk (n.drop i) else ""

/-- The archive input of `validate_zip`: opening the file either raises
`zipfile.BadZipFile` or yields the member name list (spec §6: the core
only needs the member name list). -/
inductive ZipFileInput where
  | badZip : ZipFileInput
  | zip : List String → ZipFileInput

/-- The `paths` list `validate_zip` builds: the basename of every member
whose suffix is `.json`, `.csv` or `.html`. -/
def known_paths (names : List String) : List String :=
  (names.filter (fun f =>
    pySuffix f == ".json" || pySuffix f == ".csv" ||
    pySuffix f == ".html")).map pyName

/-- Embedding of `youtube.validate_zip`: a fresh `ValidateInput` over the
two catalogues; on `BadZipFile` status 3 is set; otherwise
`infer_ddp_category(paths)` decides between status 0 (category recorded)
and status 1. -/
def validate_zip : ZipFileInput → ValidateInput
  | .badZip =>
      set_status_code
        { status_codes := STATUS_CODES, ddp_categories := DDP_CATEGORIES } 3
  | .zip names =>
      let v0 : ValidateInput :=
        { status_codes := STATUS_CODES, ddp_categories := DDP_CATEGORIES }
      let res := infer_ddp_category v0 (known_paths names)
      if res.2 then set_status_code res.1 0 else set_status_code res.1 1

end Youtube


namespace Youtube

/-- **C5**.  `validate_zip` reports: status id 3 ("Bad zipfile") when the
file is not a valid ZIP; status id 1 ("Valid DDP unhandled format") when
the ZIP is valid but no known category file is found among the
`.json`/`.csv`/`.html` member basenames; and status id 0 ("Valid DDP")
with a matched DDP category attached when at least one known file of
some category is present. -/
theorem validate_zip_c5 :
    ((validate_zip .badZip).status_code
        = some { id := 3, description := "Bad zipfile", message := "" })
    ∧ (∀ names : List String,
        (∀ cat ∈ DDP_CATEGORIES, ∀ kf ∈ cat.known_files,
          kf ∉ known_paths names) →
        (validate_zip (.zip names)).status_code
          = some { id := 1, description := "Valid DDP unhandled format",
                   message := "" })
    ∧ (∀ (names : List String) (cat : DDPCategory) (kf : String),
        cat ∈ DDP_CATEGORIES → kf ∈ cat.known_files →
        kf ∈ known_paths names →
        ∃ c ∈ DDP_CATEGORIES,
          (validate_zip (.zip names)).status_code
            = some { id := 0, description := "Valid DDP", message := "" }
          ∧ (validate_zip (.zip names)).ddp_category = some c) := by
  refine ⟨by decide, ?_, ?_⟩
  · intro names h
    have hfind : DDP_CATEGORIES.find?
        (fun cat => cat.known_files.any
          (fun kf => (known_paths names).contains kf)) = none := by
      rw [List.find?_eq_none]
      intro cat hcat
      simp only [Bool.not_eq_true, List.any_eq_false]
      intro kf hkf
      have hnm := h cat hcat kf hkf
      simpa using hnm
    simp only [validate_zip, infer_ddp_category, hfind]
    rfl
  · intro names cat kf hcat hkf hmem
    have hex : ∃ c ∈ DDP_CATEGORIES,
        (c.known_files.any (fun kf => (known_paths names).contains kf))
          = true :=
      ⟨cat, hcat, List.any_eq_true.mpr ⟨kf, hkf, by simpa using hmem⟩⟩
    obtain ⟨c, hc⟩ := Option.isSome_iff_exists.mp
      (List.find?_isSome.mpr hex)
    refine ⟨c, List.mem_of_find?_eq_some hc, ?_, ?_⟩
    · simp only [validate_zip, infer_ddp_category, hc]
      rfl
    · simp only [validate_zip, infer_ddp_category, hc]
      rfl

/-- Witness for C5: a corrupt archive, a valid ZIP with no known file,
and a valid ZIP containing `watch-history.html`. -/
theorem validate_zip_c5_witness :
    ((validate_zip .badZip).status_code
        = some { id := 3, description := "Bad zipfile", message := "" })
    ∧ ((validate_zip (.zip ["random.json", "notes.txt"])).status_code
        = some { id := 1, description := "Valid DDP unhandled format",
                 message := "" })
    ∧ (∃ c ∈ DDP_CATEGORIES,
        (validate_zip
          (.zip ["Takeout/YouTube/history/watch-history.html"])).status_code
          = some { id := 0, description := "Valid DDP", message := "" }
        ∧ (validate_zip
            (.zip ["Takeout/YouTube/history/watch-history.html"])).ddp_category
          = some c) :=
  ⟨validate_zip_c5.1,
   validate_zip_c5.2.1 ["random.json", "notes.txt"] (by decide),
   validate_zip_c5.2.2 ["Takeout/YouTube/history/watch-history.html"]
     { id := "html_en",
       ddp_filetype := DDPFiletype.HTML,
       language := Language.EN,
       known_files :=
         ["archive_browser.html",
          "watch-history.html",
          "my-comments.html",
          "my-live-chat-messages.html",
          "subscriptions.csv",
          "comments.csv"] }
     "watch-history.html" (by decide) (by decide) (by decide)⟩

end Youtube


namespace Script

/-! ## The workflow state machine `script.process`

`process(session_id)` is a Python generator: it `yield`s commands, and
each `yield render_page(...)` suspends until the host answers with one
response.  The embedding turns it into a function from the list of host
responses (consumed left to right, one per rendered page) to the list of
emitted commands.  When the response list is exhausted at a suspension
point, the session is modelled as ending with the host skipping (the
generator would otherwise stay suspended and emit nothing further).

The `props` and `commands` classes live in `port/api`, outside the
sources; they are plain data carriers and are embedded as structures
holding the fields the calls in `script.py` supply. -/

/-- `props.Translatable({"en": …, "nl": …})`. -/
structure Translatable where
  en : String
  nl : String
deriving DecidableEq

/-- A pandas dataframe as a data carrier: column names and rows of
rendered cells. -/
structure PdDataFrame where
  columns : List String
  rows : List (List String)
deriving DecidableEq

/-- Placeholder for the visualization-spec dicts built by the extraction
functions; the workflow passes them through without inspecting them. -/
abbrev VizSpec := String

/-- `props.PropsUIPromptFileInput(description, extensions)`. -/
structure PropsUIPromptFileInput where
  description : Translatable
  extensions : String
deriving DecidableEq

/-- `props.PropsUIPromptConfirm(text, ok, cancel)`. -/
structure PropsUIPromptConfirm where
  text : Translatable
  ok : Translatable
  cancel : Translatable
deriving DecidableEq

/-- `props.PropsUIPromptConsentFormTable(id, title, data_frame,
description, visualizations)`; the last two default to nothing when the
caller omits them (as `create_empty_table` does). -/
structure PropsUIPromptConsentFormTable where
  id : String
  title : Translatable
  data_frame : PdDataFrame
  description : Option Translatable := none
  visualizations : List VizSpec := []
deriving DecidableEq

/-- `props.PropsUIPromptConsentForm(tables, meta_tables)`;
`assemble_tables_into_form` always passes `[]` for the second list. -/
structure PropsUIPromptConsentForm where
  tables : List PropsUIPromptConsentFormTable
  meta_tables : List PropsUIPromptConsentFormTable
deriving DecidableEq

/-- The `body` argument of `render_page`: one of the prompt props. -/
inductive PageBody where
  | fileInput : PropsUIPromptFileInput → PageBody
  | confirm : PropsUIPromptConfirm → PageBody
  | consentForm : PropsUIPromptConsentForm → PageBody
deriving DecidableEq

/-- `props.PropsUIHeader(title)`. -/
structure PropsUIHeader where
  title : Translatable
deriving DecidableEq

/-- `props.PropsUIPageDonation(platform, header, body, footer)`; the
footer carries no data. -/
structure PropsUIPageDonation where
  platform : String
  header : PropsUIHeader
  body : PageBody
deriving DecidableEq

/-- A renderable page: a donation page or `props.PropsUIPageEnd()`. -/
inductive Page where
  | donation : PropsUIPageDonation → Page
  | endPage : Page
deriving DecidableEq

/-- `df.to_dict(orient="records")`: the rows of a dataframe, each a list
of column-name/value pairs. -/
abbrev Records := List (List (String × String))

/-- The JSON string handed to `CommandSystemDonate`, represented by the
shape of the call that produced it: `json.dumps(log_data)` in
`donate_logs`, `json.dumps({"status": message})` in `donate_status`,
`json.dumps({k: v})` in `donate_dict`, and the consent payload
`consent_result.value` forwarded unchanged. -/
inductive Payload where
  | logs : List String → Payload
  | status : String → Payload
  | dictEntry : String → Records → Payload
  | consentValue : String → Payload
deriving DecidableEq

/-- The commands the generator yields: `CommandSystemDonate(key, json)`,
`CommandUIRender(page)` and `CommandSystemExit(code, info)`. -/
inductive Command where
  | systemDonate : String → Payload → Command
  | uiRender : Page → Command
  | systemExit : Int → String → Command
deriving DecidableEq

/-- A host response, discriminated as the code does on `__type__`:
`"PayloadString"`, `"PayloadTrue"`, `"PayloadJSON"`, or anything else
(`other`, covering `PayloadFalse`/`PayloadNone` — the user skipped). -/
inductive Response where
  | payloadString : String → Response
  | payloadTrue : Response
  | payloadJSON : String → Response
  | other : Response
deriving DecidableEq

/-- One entry of the `platforms` list of `process`:
`(platform_name, extraction_fun, validation_fun)`.  Since
`extraction_fun(file, validation)` always receives
`validation_fun(file)` computed from the same submitted file,
both are embedded as functions of the file reference alone:
`validateStatusId f` is `validation_fun(f).status_code.id` (the only
field `process` reads) and `extract f` is
`extraction_fun(f, validation_fun(f))` — the `(table_list,
donation_dict)` pair. -/
structure Platform where
  platform_name : String
  validateStatusId : String → Int
  extract : String →
    List PropsUIPromptConsentFormTable × Option (List (String × Records))

/-- `script.donate`. -/
def donate (key : String) (json_string : Payload) : Command :=
  Command.systemDonate key json_string

/-- `script.donate_logs`.  The `logging.basicConfig(stream=LOG_STREAM)`
line is commented out in the source, so `LOG_STREAM.getvalue()` is
always `""` and `log_data = ["no logs"]`. -/
def donate_logs (key : String) : Command :=
  donate key (Payload.logs ["no logs"])

/-- `script.donate_status`. -/
def donate_status (filename : String) (message : String) : Command :=
  donate filename (Payload.status message)

/-- `script.donate_dict`: one donate command per mapping entry, keyed
`f"{platform_name}_{k}"` and carrying `json.dumps({k: v})`. -/
def donate_dict (platform_name : String) (d : List (String × Records)) :
    List Command :=
  d.map (fun kv => donate (platform_name ++ "_" ++ kv.1)
    (Payload.dictEntry kv.1 kv.2))

/-- `script.render_end_page`. -/
def render_end_page : Command := Command.uiRender Page.endPage

/-- `script.render_page`: a donation page whose header shows the
platform name in both languages. -/
def render_page (platform : String) (body : PageBody) : Command :=
  Command.uiRender (Page.donation
    { platform := platform,
      header := { title := { en := platform, nl := platform } },
      body := body })

/-- `script.retry_confirmation`. -/
def retry_confirmation (platform : String) : PropsUIPromptConfirm :=
  { text :=
      { en := "Unfortunately, we could not process your " ++ platform ++
          " file. If you are sure that you selected the correct file, press Continue. To select a different file, press Try again.",
        nl := "Helaas, kunnen we je " ++ platform ++
          " bestand niet verwerken. Weet je zeker dat je het juiste bestand hebt gekozen? Ga dan verder. Probeer opnieuw als je een ander bestand wilt kiezen." },
    ok := { en := "Try again", nl := "Probeer opnieuw" },
    cancel := { en := "Continue", nl := "Verder" } }

/-- `script.prompt_file`. -/
def prompt_file (extensions : String) (platform : String) :
    PropsUIPromptFileInput :=
  { description :=
      { en := "Please follow the download instructions and choose the file that you stored on your device. Click “Skip” at the right bottom, if you do not have a file from " ++
          platform ++ ".",
        nl := "Volg de download instructies en kies het bestand dat je opgeslagen hebt op je apparaat. Als je geen " ++
          platform ++ " bestand hebt klik dan op “Overslaan” rechts onder." },
    extensions := extensions }

/-- `script.assemble_tables_into_form`. -/
def assemble_tables_into_form
    (table_list : List PropsUIPromptConsentFormTable) :
    PropsUIPromptConsentForm :=
  { tables := table_list, meta_tables := [] }

/-- `script.create_empty_table`: the synthesized "no data found"
placeholder. -/
def create_empty_table (platform_name : String) :
    PropsUIPromptConsentFormTable :=
  { id := platform_name ++ "_no_data_found",
    title :=
      { en := "Nothing went wrong, but we couldn't find any data in your files",
        nl := "Er ging niks mis, maar we konden geen gegevens in jouw data vinden" },
    data_frame := { columns := ["No data found"],
                    rows := [["No data found"]] } }

/-- `script.exit`. -/
def exit (code : Int) (info : String) : Command :=
  Command.systemExit code info

/-- The file-prompt MIME hint string `process` passes to
`prompt_file`. -/
def FILE_TYPES : String := "application/zip, text/plain, application/json"

/-- The log-donation key `f"{session_id}-{platform_name}-tracking"`. -/
def trackTag (session_id : String) (p : Platform) : String :=
  session_id ++ "-" ++ p.platform_name ++ "-tracking"

mutual

/-- The `while True` prompt-file loop of `process` for one platform,
with `retry_branch` below handling the retry-confirmation answer.
Returns the commands yielded inside the loop, the `(table_list,
donation_dict)` pair when extraction ran (`none` when the platform was
skipped), and the unconsumed responses.  Per iteration the loop yields
`donate_logs`, renders the file prompt (consuming one response), and
then: on a recognized file (`status_code.id == 0`) yields `donate_logs`
and breaks with the extraction result; on an unrecognized file yields
`donate_logs`, renders the retry confirmation and continues in
`retry_branch`; on a non-file response yields `donate_logs` and
breaks. -/
def prompt_loop (session_id : String) (p : Platform) :
    List Response →
      List Command ×
        Option (List PropsUIPromptConsentFormTable ×
          Option (List (String × Records))) ×
        List Response
  | [] =>
      ([donate_logs (trackTag session_id p),
        render_page p.platform_name
          (PageBody.fileInput (prompt_file FILE_TYPES p.platform_name)),
        donate_logs (trackTag session_id p)], none, [])
  | Response.payloadString f :: rest =>
      if p.validateStatusId f == 0 then
        ([donate_logs (trackTag session_id p),
          render_page p.platform_name
            (PageBody.fileInput (prompt_file FILE_TYPES p.platform_name)),
          donate_logs (trackTag session_id p)], some (p.extract f), rest)
      else
        let y := retry_branch session_id p rest
        ([donate_logs (trackTag session_id p),
          render_page p.platform_name
            (PageBody.fileInput (prompt_file FILE_TYPES p.platform_name)),
          donate_logs (trackTag session_id p),
          render_page p.platform_name
            (PageBody.confirm (retry_confirmation p.platform_name))]
          ++ y.1, y.2.1, y.2.2)
  | Response.payloadTrue :: rest =>
      ([donate_logs (trackTag session_id p),
        render_page p.platform_name
          (PageBody.fileInput (prompt_file FILE_TYPES p.platform_name)),
        donate_logs (trackTag session_id p)], none, rest)
  | Response.payloadJSON _ :: rest =>
      ([donate_logs (trackTag session_id p),
        render_page p.platform_name
          (PageBody.fileInput (prompt_file FILE_TYPES p.platform_name)),
        donate_logs (trackTag session_id p)], none, rest)
  | Response.other :: rest =>
      ([donate_logs (trackTag session_id p),
        render_page p.platform_name
          (PageBody.fileInput (prompt_file FILE_TYPES p.platform_name)),
        donate_logs (trackTag session_id p)], none, rest)

/-- After the retry confirmation was rendered: `PayloadTrue` re-enters
the prompt loop (`continue`); anything else yields `donate_logs` and
breaks out of the loop. -/
def retry_branch (session_id : String) (p : Platform) :
    List Response →
      List Command ×
        Option (List PropsUIPromptConsentFormTable ×
          Option (List (String × Records))) ×
        List Response
  | [] => ([donate_logs (trackTag session_id p)], none, [])
  | Response.payloadTrue :: rest2 => prompt_loop session_id p rest2
  | Response.payloadString _ :: rest2 =>
      ([donate_logs (trackTag session_id p)], none, rest2)
  | Response.payloadJSON _ :: rest2 =>
      ([donate_logs (trackTag session_id p)], none, rest2)
  | Response.other :: rest2 =>
      ([donate_logs (trackTag session_id p)], none, rest2)

end

/-- The `if table_list is not None` consent block of `process`: yields
`donate_logs`; when nothing was extracted yields the `NO_DATA_FOUND`
status donation and appends `create_empty_table`; renders the assembled
consent form (consuming one response); then either donates — the
donation-dict entries individually when `donation_dict is not None`,
otherwise the consent payload under the platform name — followed by
`donate_logs` and the `DONATED` status donation, or (on decline) yields
`donate_logs` and the `SKIP_REVIEW_CONSENT` status donation. -/
def consent_phase (session_id : String) (p : Platform)
    (tables : List PropsUIPromptConsentFormTable)
    (dd : Option (List (String × Records))) (rs : List Response) :
    List Command × List Response :=
  let tables2 :=
    if tables.length == 0 then tables ++ [create_empty_table p.platform_name]
    else tables
  let pre :=
    [donate_logs (trackTag session_id p)] ++
    (if tables.length == 0 then
      [donate_status
        (session_id ++ "-" ++ p.platform_name ++ "-NO-DATA-FOUND")
        "NO_DATA_FOUND"]
    else []) ++
    [render_page p.platform_name
      (PageBody.consentForm (assemble_tables_into_form tables2))]
  match rs with
  | Response.payloadJSON v :: rest =>
      (pre ++
        (match dd with
         | some d => donate_dict p.platform_name d
         | none => [donate p.platform_name (Payload.consentValue v)]) ++
        [donate_logs (trackTag session_id p),
         donate_status (session_id ++ "-" ++ p.platform_name ++ "-DONATED")
           "DONATED"], rest)
  | [] =>
      (pre ++
        [donate_logs (trackTag session_id p),
         donate_status
           (session_id ++ "-" ++ p.platform_name ++ "-SKIP-REVIEW-CONSENT")
           "SKIP_REVIEW_CONSENT"], [])
  | Response.payloadString _ :: rest =>
      (pre ++
        [donate_logs (trackTag session_id p),
         donate_status
           (session_id ++ "-" ++ p.platform_name ++ "-SKIP-REVIEW-CONSENT")
           "SKIP_REVIEW_CONSENT"], rest)
  | Response.payloadTrue :: rest =>
      (pre ++
        [donate_logs (trackTag session_id p),
         donate_status
           (session_id ++ "-" ++ p.platform_name ++ "-SKIP-REVIEW-CONSENT")
           "SKIP_REVIEW_CONSENT"], rest)
  | Response.other :: rest =>
      (pre ++
        [donate_logs (trackTag session_id p),
         donate_status
           (session_id ++ "-" ++ p.platform_name ++ "-SKIP-REVIEW-CONSENT")
           "SKIP_REVIEW_CONSENT"], rest)

/-- One platform's pass through the `for platform in platforms` body:
the prompt loop, then — only when extraction ran — the consent block. -/
def platform_step (session_id : String) (p : Platform)
    (rs : List Response) : List Command × List Response :=
  match prompt_loop session_id p rs with
  | (cmds, none, rem) => (cmds, rem)
  | (cmds, some (tables, dd), rem) =>
      let c := consent_phase session_id p tables dd rem
      (cmds ++ c.1, c.2)

/-- The `for platform in platforms` loop. -/
def process_platforms (session_id : String) :
    List Platform → List Response → List Command
  | [], _ => []
  | p :: ps, rs =>
      let s := platform_step session_id p rs
      s.1 ++ process_platforms session_id ps s.2

/-- Embedding of `script.process`, parametrized by the platform list
(the source instantiates it with the YouTube and TikTok entries): the
initial `donate_logs(f"{session_id}-tracking")`, the per-platform loop,
then `exit(0, "Success")` and the end page. -/
def process (session_id : String) (platforms : List Platform)
    (rs : List Response) : List Command :=
  [donate_logs (session_id ++ "-tracking")] ++
  process_platforms session_id platforms rs ++
  [exit 0 "Success", render_end_page]

end Script


namespace Script

/-- A donate command produced by `donate_dict` (payload
`json.dumps({k: v})`). -/
def isDictDonate : Command → Bool
  | Command.systemDonate _ (Payload.dictEntry _ _) => true
  | _ => false

/-- A donate command carrying the whole consent payload
(`donate(platform_name, consent_result.value)`). -/
def isWholeTableDonate : Command → Bool
  | Command.systemDonate _ (Payload.consentValue _) => true
  | _ => false

/-- A log donation or a donation-page render — the only commands the
prompt-file loop ever yields. -/
def isLogOrRender : Command → Bool
  | Command.systemDonate _ (Payload.logs _) => true
  | Command.uiRender (Page.donation _) => true
  | _ => false

/-- A session-terminating command: the exit command or the end-page
render. -/
def isTerminalCmd : Command → Bool
  | Command.systemExit _ _ => true
  | Command.uiRender Page.endPage => true
  | _ => false

theorem isLogOrRender_not_terminal (c : Command)
    (h : isLogOrRender c = true) : isTerminalCmd c = false := by
  cases c with
  | systemDonate k pl => rfl
  | uiRender pg =>
    cases pg with
    | donation _ => rfl
    | endPage => simp [isLogOrRender] at h
  | systemExit code info => simp [isLogOrRender] at h

/-- Every command yielded inside the prompt-file loop is a log donation
or a donation-page render — in particular the loop never donates data or
status and never terminates the session. -/
theorem prompt_loop_cmds (session_id : String) (p : Platform) :
    ∀ (rs : List Response), ∀ c ∈ (prompt_loop session_id p rs).1,
      isLogOrRender c = true := by
  intro rs
  generalize hlen : rs.length = n
  induction n using Nat.strong_induction_on generalizing rs with
  | _ n ih =>
    cases rs with
    | nil =>
      intro c hc
      simp only [prompt_loop, List.mem_cons, List.not_mem_nil, or_false]
        at hc
      rcases hc with rfl | rfl | rfl <;> rfl
    | cons r rest =>
      cases r with
      | payloadString f =>
        by_cases hv : (p.validateStatusId f == 0) = true
        · intro c hc
          rw [prompt_loop, if_pos hv] at hc
          simp only [List.mem_cons, List.not_mem_nil, or_false] at hc
          rcases hc with rfl | rfl | rfl <;> rfl
        · intro c hc
          rw [prompt_loop, if_neg hv] at hc
          simp only [List.cons_append, List.nil_append, List.mem_cons]
            at hc
          rcases hc with rfl | rfl | rfl | rfl | hc
          · rfl
          · rfl
          · rfl
          · rfl
          · cases rest with
            | nil =>
              simp only [retry_branch, List.mem_cons, List.not_mem_nil,
                or_false] at hc
              subst hc
              rfl
            | cons r2 rest2 =>
              cases r2 with
              | payloadTrue =>
                simp only [retry_branch] at hc
                exact ih rest2.length (by simp at hlen; omega) rest2 rfl c hc
              | payloadString s =>
                simp only [retry_branch, List.mem_cons, List.not_mem_nil,
                  or_false] at hc
                subst hc
                rfl
              | payloadJSON s =>
                simp only [retry_branch, List.mem_cons, List.not_mem_nil,
                  or_false] at hc
                subst hc
                rfl
              | other =>
                simp only [retry_branch, List.mem_cons, List.not_mem_nil,
                  or_false] at hc
                subst hc
                rfl
      | payloadTrue =>
        intro c hc
        simp only [prompt_loop, List.mem_cons, List.not_mem_nil,
          or_false] at hc
        rcases hc with rfl | rfl | rfl <;> rfl
      | payloadJSON s =>
        intro c hc
        simp only [prompt_loop, List.mem_cons, List.not_mem_nil,
          or_false] at hc
        rcases hc with rfl | rfl | rfl <;> rfl
      | other =>
        intro c hc
        simp only [prompt_loop, List.mem_cons, List.not_mem_nil,
          or_false] at hc
        rcases hc with rfl | rfl | rfl <;> rfl

/-- The prompt-file loop always opens with the log donation and the
file-prompt render. -/
theorem prompt_loop_take2 (session_id : String) (p : Platform)
    (rs : List Response) :
    (prompt_loop session_id p rs).1.take 2
      = [donate_logs (trackTag session_id p),
         render_page p.platform_name
           (PageBody.fileInput (prompt_file FILE_TYPES p.platform_name))] := by
  cases rs with
  | nil => rfl
  | cons r rest =>
    cases r with
    | payloadString f =>
      by_cases hv : (p.validateStatusId f == 0) = true
      · rw [prompt_loop, if_pos hv]
        rfl
      · rw [prompt_loop, if_neg hv]
        rfl
    | payloadTrue => rfl
    | payloadJSON s => rfl
    | other => rfl

/-- No command of the consent block terminates the session. -/
theorem consent_phase_no_terminal (session_id : String) (p : Platform)
    (tables : List PropsUIPromptConsentFormTable)
    (dd : Option (List (String × Records))) (rs : List Response) :
    ∀ c ∈ (consent_phase session_id p tables dd rs).1,
      isTerminalCmd c = false := by
  have hpre : ∀ c ∈
      ([donate_logs (trackTag session_id p)] ++
        (if tables.length == 0 then
          [donate_status
            (session_id ++ "-" ++ p.platform_name ++ "-NO-DATA-FOUND")
            "NO_DATA_FOUND"]
        else []) ++
        [render_page p.platform_name
          (PageBody.consentForm (assemble_tables_into_form
            (if tables.length == 0 then
              tables ++ [create_empty_table p.platform_name]
            else tables)))]),
      isTerminalCmd c = false := by
    intro c hc
    rcases List.mem_append.mp hc with hc1 | hc4
    · rcases List.mem_append.mp hc1 with hc2 | hc3
      · simp only [List.mem_cons, List.not_mem_nil, or_false] at hc2
        subst hc2
        rfl
      · by_cases ht : (tables.length == 0) = true
        · rw [if_pos ht] at hc3
          simp only [List.mem_cons, List.not_mem_nil, or_false] at hc3
          subst hc3
          rfl
        · rw [if_neg ht] at hc3
          simp at hc3
    · simp only [List.mem_cons, List.not_mem_nil, or_false] at hc4
      subst hc4
      rfl
  have htail : ∀ (suffix : String) (msg : String), ∀ c ∈
      [donate_logs (trackTag session_id p),
       donate_status (session_id ++ "-" ++ p.platform_name ++ suffix) msg],
      isTerminalCmd c = false := by
    intro suffix msg c hc
    simp only [List.mem_cons, List.not_mem_nil, or_false] at hc
    rcases hc with rfl | rfl <;> rfl
  intro c hc
  cases rs with
  | nil =>
    simp only [consent_phase] at hc
    rcases List.mem_append.mp hc with hc | hc
    · exact hpre c hc
    · exact htail "-SKIP-REVIEW-CONSENT" "SKIP_REVIEW_CONSENT" c hc
  | cons r rest =>
    cases r with
    | payloadJSON v =>
      simp only [consent_phase] at hc
      rcases List.mem_append.mp hc with hc | hc
      · rcases List.mem_append.mp hc with hc | hc
        · exact hpre c hc
        · cases dd with
          | none =>
            simp only [List.mem_cons, List.not_mem_nil, or_false] at hc
            subst hc
            rfl
          | some dlist =>
            simp only [donate_dict, List.mem_map] at hc
            obtain ⟨kv, -, rfl⟩ := hc
            rfl
      · exact htail "-DONATED" "DONATED" c hc
    | payloadString s =>
      simp only [consent_phase] at hc
      rcases List.mem_append.mp hc with hc | hc
      · exact hpre c hc
      · exact htail "-SKIP-REVIEW-CONSENT" "SKIP_REVIEW_CONSENT" c hc
    | payloadTrue =>
      simp only [consent_phase] at hc
      rcases List.mem_append.mp hc with hc | hc
      · exact hpre c hc
      · exact htail "-SKIP-REVIEW-CONSENT" "SKIP_REVIEW_CONSENT" c hc
    | other =>
      simp only [consent_phase] at hc
      rcases List.mem_append.mp hc with hc | hc
      · exact hpre c hc
      · exact htail "-SKIP-REVIEW-CONSENT" "SKIP_REVIEW_CONSENT" c hc

end Script


namespace Script

/-- No command of one platform's pass terminates the session. -/
theorem platform_step_no_terminal (session_id : String) (p : Platform)
    (rs : List Response) :
    ∀ c ∈ (platform_step session_id p rs).1, isTerminalCmd c = false := by
  intro c hc
  rcases hpl : prompt_loop session_id p rs with ⟨cmds, res, rem⟩
  have h1 : ∀ c ∈ cmds, isLogOrRender c = true := by
    have h := prompt_loop_cmds session_id p rs
    rw [hpl] at h
    exact h
  simp only [platform_step, hpl] at hc
  cases res with
  | none =>
    exact isLogOrRender_not_terminal c (h1 c hc)
  | some td =>
    obtain ⟨tables, dd⟩ := td
    simp only at hc
    rcases List.mem_append.mp hc with hc | hc
    · exact isLogOrRender_not_terminal c (h1 c hc)
    · exact consent_phase_no_terminal session_id p tables dd rem c hc

/-- No command of the whole per-platform loop terminates the session. -/
theorem process_platforms_no_terminal (session_id : String) :
    ∀ (ps : List Platform) (rs : List Response),
      ∀ c ∈ process_platforms session_id ps rs, isTerminalCmd c = false := by
  intro ps
  induction ps with
  | nil => intro rs c hc; simp [process_platforms] at hc
  | cons p ps ih =>
    intro rs c hc
    simp only [process_platforms] at hc
    rcases List.mem_append.mp hc with hc | hc
    · exact platform_step_no_terminal session_id p rs c hc
    · exact ih _ c hc

/-- **C9**.  For every sequence of host responses, the workflow is a
total function: every platform's pass reaches a terminal outcome and the
loop proceeds to the next platform regardless of that outcome (the trace
is the concatenation of the per-platform traces, and no per-platform
failure or skip aborts the session); after the last platform the
workflow emits exactly one exit command with code 0 followed by exactly
one end-page render command, and neither occurs anywhere else. -/
theorem process_c9 (session_id : String) (platforms : List Platform)
    (rs : List Response) :
    process session_id platforms rs
      = donate_logs (session_id ++ "-tracking")
        :: (process_platforms session_id platforms rs
            ++ [exit 0 "Success", render_end_page])
    ∧ (process session_id platforms rs).count (exit 0 "Success") = 1
    ∧ (process session_id platforms rs).count render_end_page = 1
    ∧ (∀ (q : Platform) (qs : List Platform) (rs2 : List Response),
        process_platforms session_id (q :: qs) rs2
          = (platform_step session_id q rs2).1
            ++ process_platforms session_id qs
                (platform_step session_id q rs2).2) := by
  have hterm := process_platforms_no_terminal session_id platforms rs
  have hb1 : (process_platforms session_id platforms rs).count
      (exit 0 "Success") = 0 := by
    rw [List.count_eq_zero]
    intro hmem
    have h := hterm _ hmem
    simp [isTerminalCmd, exit] at h
  have hb2 : (process_platforms session_id platforms rs).count
      render_end_page = 0 := by
    rw [List.count_eq_zero]
    intro hmem
    have h := hterm _ hmem
    simp [isTerminalCmd, render_end_page] at h
  refine ⟨by simp [process], ?_, ?_, fun q qs rs2 => rfl⟩
  · rw [process, List.count_append, List.count_append, hb1]
    have h1 : ([donate_logs (session_id ++ "-tracking")] :
        List Command).count (exit 0 "Success") = 0 := rfl
    have h2 : ([exit 0 "Success", render_end_page] :
        List Command).count (exit 0 "Success") = 1 := by decide
    rw [h1, h2]
  · rw [process, List.count_append, List.count_append, hb2]
    have h1 : ([donate_logs (session_id ++ "-tracking")] :
        List Command).count render_end_page = 0 := rfl
    have h2 : ([exit 0 "Success", render_end_page] :
        List Command).count render_end_page = 1 := by decide
    rw [h1, h2]

/-- **C8**.  After an invalid file (non-zero validation status) and a
"try again" confirmation (`PayloadTrue`), exactly one new file prompt is
issued before any further progress — the continuation trace opens with
the log donation and the file-prompt render — and no donation other than
the best-effort log donations occurs anywhere in the prompt loop (every
command it yields is a log donation or a donation-page render), so no
data is donated until a valid file is supplied or the user declines. -/
theorem process_c8 (session_id : String) (p : Platform) (f : String)
    (rest : List Response) (hv : p.validateStatusId f ≠ 0) :
    ((prompt_loop session_id p
        (Response.payloadString f :: Response.payloadTrue :: rest)).1
      = [donate_logs (trackTag session_id p),
         render_page p.platform_name
           (PageBody.fileInput (prompt_file FILE_TYPES p.platform_name)),
         donate_logs (trackTag session_id p),
         render_page p.platform_name
           (PageBody.confirm (retry_confirmation p.platform_name))]
        ++ (prompt_loop session_id p rest).1)
    ∧ (prompt_loop session_id p
        (Response.payloadString f :: Response.payloadTrue :: rest)).2
      = (prompt_loop session_id p rest).2
    ∧ ((prompt_loop session_id p rest).1.take 2
      = [donate_logs (trackTag session_id p),
         render_page p.platform_name
           (PageBody.fileInput (prompt_file FILE_TYPES p.platform_name))])
    ∧ (∀ c ∈ (prompt_loop session_id p
        (Response.payloadString f :: Response.payloadTrue :: rest)).1,
        isLogOrRender c = true) := by
  have hv' : ¬ ((p.validateStatusId f == 0) = true) := by simp [hv]
  refine ⟨?_, ?_, prompt_loop_take2 session_id p rest,
    prompt_loop_cmds session_id p _⟩
  · rw [prompt_loop, if_neg hv']
    rfl
  · rw [prompt_loop, if_neg hv']
    rfl

/-- **C7**.  When validation succeeds but extraction returns an empty
table list, the workflow emits the `NO_DATA_FOUND` status event and then
renders a consent form containing exactly the one synthesized
"no data found" placeholder table. -/
theorem process_c7 (session_id : String) (p : Platform) (f : String)
    (dd : Option (List (String × Records))) (rest : List Response)
    (hv : p.validateStatusId f = 0)
    (hx : p.extract f = ([], dd)) :
    ∃ (tail : List Command) (rem : List Response),
      platform_step session_id p (Response.payloadString f :: rest)
        = ([donate_logs (trackTag session_id p),
            render_page p.platform_name
              (PageBody.fileInput (prompt_file FILE_TYPES p.platform_name)),
            donate_logs (trackTag session_id p),
            donate_logs (trackTag session_id p),
            donate_status
              (session_id ++ "-" ++ p.platform_name ++ "-NO-DATA-FOUND")
              "NO_DATA_FOUND",
            render_page p.platform_name
              (PageBody.consentForm (assemble_tables_into_form
                [create_empty_table p.platform_name]))] ++ tail, rem) := by
  have hv' : (p.validateStatusId f == 0) = true := by simp [hv]
  have hpl : prompt_loop session_id p (Response.payloadString f :: rest)
      = ([donate_logs (trackTag session_id p),
          render_page p.platform_name
            (PageBody.fileInput (prompt_file FILE_TYPES p.platform_name)),
          donate_logs (trackTag session_id p)], some ([], dd), rest) := by
    rw [prompt_loop, if_pos hv', hx]
  have hps : platform_step session_id p (Response.payloadString f :: rest)
      = ([donate_logs (trackTag session_id p),
          render_page p.platform_name
            (PageBody.fileInput (prompt_file FILE_TYPES p.platform_name)),
          donate_logs (trackTag session_id p)]
          ++ (consent_phase session_id p [] dd rest).1,
        (consent_phase session_id p [] dd rest).2) := by
    simp only [platform_step, hpl]
  cases rest with
  | nil =>
    exact ⟨[donate_logs (trackTag session_id p),
      donate_status
        (session_id ++ "-" ++ p.platform_name ++ "-SKIP-REVIEW-CONSENT")
        "SKIP_REVIEW_CONSENT"], [], by rw [hps]; rfl⟩
  | cons r rest2 =>
    cases r with
    | payloadJSON v =>
      cases dd with
      | some dlist =>
        exact ⟨donate_dict p.platform_name dlist ++
          [donate_logs (trackTag session_id p),
           donate_status
             (session_id ++ "-" ++ p.platform_name ++ "-DONATED")
             "DONATED"], rest2, by rw [hps]; rfl⟩
      | none =>
        exact ⟨[donate p.platform_name (Payload.consentValue v),
          donate_logs (trackTag session_id p),
          donate_status (session_id ++ "-" ++ p.platform_name ++ "-DONATED")
            "DONATED"], rest2, by rw [hps]; rfl⟩
    | payloadString s =>
      exact ⟨[donate_logs (trackTag session_id p),
        donate_status
          (session_id ++ "-" ++ p.platform_name ++ "-SKIP-REVIEW-CONSENT")
          "SKIP_REVIEW_CONSENT"], rest2, by rw [hps]; rfl⟩
    | payloadTrue =>
      exact ⟨[donate_logs (trackTag session_id p),
        donate_status
          (session_id ++ "-" ++ p.platform_name ++ "-SKIP-REVIEW-CONSENT")
          "SKIP_REVIEW_CONSENT"], rest2, by rw [hps]; rfl⟩
    | other =>
      exact ⟨[donate_logs (trackTag session_id p),
        donate_status
          (session_id ++ "-" ++ p.platform_name ++ "-SKIP-REVIEW-CONSENT")
          "SKIP_REVIEW_CONSENT"], rest2, by rw [hps]; rfl⟩

/-- **C6**.  When extraction returns a capped donation mapping with `N`
entries and the user accepts consent, the workflow emits exactly the `N`
per-entry donate commands of `donate_dict` — one per mapping key, keyed
`f"{platform_name}_{k}"` and carrying that key's payload — and zero
whole-table donate commands (no command carries the consent payload).
Log and status donations (spec §6's separate best-effort event channel,
also implemented via `donate`) are not data donations and are counted
apart. -/
theorem process_c6 (session_id : String) (p : Platform) (f v : String)
    (tables : List PropsUIPromptConsentFormTable)
    (d : List (String × Records))
    (hv : p.validateStatusId f = 0)
    (hx : p.extract f = (tables, some d)) :
    ((platform_step session_id p
        [Response.payloadString f, Response.payloadJSON v]).1.filter
          isDictDonate)
      = donate_dict p.platform_name d
    ∧ (donate_dict p.platform_name d).length = d.length
    ∧ (∀ kv ∈ d,
        donate (p.platform_name ++ "_" ++ kv.1)
          (Payload.dictEntry kv.1 kv.2)
          ∈ (platform_step session_id p
              [Response.payloadString f, Response.payloadJSON v]).1)
    ∧ (∀ c ∈ (platform_step session_id p
        [Response.payloadString f, Response.payloadJSON v]).1,
        isWholeTableDonate c = false) := by
  have hv' : (p.validateStatusId f == 0) = true := by simp [hv]
  have hpl : prompt_loop session_id p
      [Response.payloadString f, Response.payloadJSON v]
      = ([donate_logs (trackTag session_id p),
          render_page p.platform_name
            (PageBody.fileInput (prompt_file FILE_TYPES p.platform_name)),
          donate_logs (trackTag session_id p)], some (tables, some d),
         [Response.payloadJSON v]) := by
    rw [prompt_loop, if_pos hv', hx]
  have hps : platform_step session_id p
      [Response.payloadString f, Response.payloadJSON v]
      = ([donate_logs (trackTag session_id p),
          render_page p.platform_name
            (PageBody.fileInput (prompt_file FILE_TYPES p.platform_name)),
          donate_logs (trackTag session_id p)]
          ++ (consent_phase session_id p tables (some d)
              [Response.payloadJSON v]).1,
        (consent_phase session_id p tables (some d)
          [Response.payloadJSON v]).2) := by
    simp only [platform_step, hpl]
  have hcp : (consent_phase session_id p tables (some d)
      [Response.payloadJSON v]).1
      = ([donate_logs (trackTag session_id p)] ++
        (if tables.length == 0 then
          [donate_status
            (session_id ++ "-" ++ p.platform_name ++ "-NO-DATA-FOUND")
            "NO_DATA_FOUND"]
        else []) ++
        [render_page p.platform_name
          (PageBody.consentForm (assemble_tables_into_form
            (if tables.length == 0 then
              tables ++ [create_empty_table p.platform_name]
            else tables)))]) ++
        donate_dict p.platform_name d ++
        [donate_logs (trackTag session_id p),
         donate_status (session_id ++ "-" ++ p.platform_name ++ "-DONATED")
           "DONATED"] := rfl
  have e1 : ∀ k, isDictDonate (donate_logs k) = false := fun _ => rfl
  have e2 : ∀ pn b, isDictDonate (render_page pn b) = false := fun _ _ => rfl
  have e3 : ∀ k m, isDictDonate (donate_status k m) = false :=
    fun _ _ => rfl
  have hddfilter : (donate_dict p.platform_name d).filter isDictDonate
      = donate_dict p.platform_name d := by
    apply List.filter_eq_self.mpr
    intro c hc
    simp only [donate_dict, List.mem_map] at hc
    obtain ⟨kv, -, rfl⟩ := hc
    rfl
  refine ⟨?_, by simp [donate_dict], ?_, ?_⟩
  · rw [hps, hcp]
    by_cases ht : (tables.length == 0) = true <;>
      simp [ht, List.filter_append, hddfilter, List.filter_cons, e1, e2, e3]
  · intro kv hkv
    rw [hps, hcp]
    have hmem : donate (p.platform_name ++ "_" ++ kv.1)
        (Payload.dictEntry kv.1 kv.2) ∈ donate_dict p.platform_name d := by
      simp only [donate_dict, List.mem_map]
      exact ⟨kv, hkv, rfl⟩
    exact List.mem_append.mpr (Or.inr (List.mem_append.mpr
      (Or.inl (List.mem_append.mpr (Or.inr hmem)))))
  · intro c hc
    rw [hps, hcp] at hc
    rcases List.mem_append.mp hc with hc | hc
    · simp only [List.mem_cons, List.not_mem_nil, or_false] at hc
      rcases hc with rfl | rfl | rfl <;> rfl
    · rcases List.mem_append.mp hc with hc | hc
      · rcases List.mem_append.mp hc with hc | hc
        · rcases List.mem_append.mp hc with hc | hc
          · rcases List.mem_append.mp hc with hc | hc
            · simp only [List.mem_cons, List.not_mem_nil, or_false] at hc
              subst hc
              rfl
            · by_cases ht : (tables.length == 0) = true
              · rw [if_pos ht] at hc
                simp only [List.mem_cons, List.not_mem_nil, or_false] at hc
                subst hc
                rfl
              · rw [if_neg ht] at hc
                simp at hc
          · simp only [List.mem_cons, List.not_mem_nil, or_false] at hc
            subst hc
            rfl
        · simp only [donate_dict, List.mem_map] at hc
          obtain ⟨kv, -, rfl⟩ := hc
          rfl
      · simp only [List.mem_cons, List.not_mem_nil, or_false] at hc
        rcases hc with rfl | rfl <;> rfl

end Script


namespace Script

/-- A concrete platform whose extraction supplies a capped donation
mapping (as `extract_tiktok` does). -/
def demo_platform_capped : Platform :=
  { platform_name := "TikTok",
    validateStatusId := fun _ => 0,
    extract := fun _ =>
      ([], some [("tiktok_favorite_videos", []), ("tiktok_searches", [])]) }

/-- A concrete platform whose extraction returns no tables. -/
def demo_platform_empty : Platform :=
  { platform_name := "YouTube",
    validateStatusId := fun _ => 0,
    extract := fun _ => ([], none) }

/-- A concrete platform that never recognizes the submitted file. -/
def demo_platform_invalid : Platform :=
  { platform_name := "YouTube",
    validateStatusId := fun _ => 1,
    extract := fun _ => ([], none) }

/-- Witness for C6 at a concrete capped platform with two mapping
entries: exactly the two per-entry donate commands and no whole-table
donate. -/
theorem process_c6_witness :
    (demo_platform_capped.validateStatusId "file.zip" = 0)
    ∧ (demo_platform_capped.extract "file.zip"
        = ([], some [("tiktok_favorite_videos", []),
            ("tiktok_searches", [])]))
    ∧ (((platform_step "session" demo_platform_capped
          [Response.payloadString "file.zip",
           Response.payloadJSON "{}"]).1.filter isDictDonate)
        = donate_dict demo_platform_capped.platform_name
            [("tiktok_favorite_videos", []), ("tiktok_searches", [])]
      ∧ (donate_dict demo_platform_capped.platform_name
          [("tiktok_favorite_videos", []), ("tiktok_searches", [])]).length
        = ([("tiktok_favorite_videos", []), ("tiktok_searches", [])] :
            List (String × Records)).length
      ∧ (∀ kv ∈ ([("tiktok_favorite_videos", []), ("tiktok_searches", [])] :
            List (String × Records)),
          donate (demo_platform_capped.platform_name ++ "_" ++ kv.1)
            (Payload.dictEntry kv.1 kv.2)
            ∈ (platform_step "session" demo_platform_capped
                [Response.payloadString "file.zip",
                 Response.payloadJSON "{}"]).1)
      ∧ (∀ c ∈ (platform_step "session" demo_platform_capped
          [Response.payloadString "file.zip",
           Response.payloadJSON "{}"]).1,
          isWholeTableDonate c = false)) :=
  ⟨rfl, rfl,
   process_c6 "session" demo_platform_capped "file.zip" "{}" []
     [("tiktok_favorite_videos", []), ("tiktok_searches", [])] rfl rfl⟩

/-- Witness for C7 at a concrete platform extracting zero tables. -/
theorem process_c7_witness :
    (demo_platform_empty.validateStatusId "file.zip" = 0)
    ∧ (demo_platform_empty.extract "file.zip" = ([], none))
    ∧ (∃ (tail : List Command) (rem : List Response),
        platform_step "session" demo_platform_empty
          [Response.payloadString "file.zip"]
          = ([donate_logs (trackTag "session" demo_platform_empty),
              render_page demo_platform_empty.platform_name
                (PageBody.fileInput (prompt_file FILE_TYPES
                  demo_platform_empty.platform_name)),
              donate_logs (trackTag "session" demo_platform_empty),
              donate_logs (trackTag "session" demo_platform_empty),
              donate_status
                ("session" ++ "-" ++ demo_platform_empty.platform_name ++
                  "-NO-DATA-FOUND")
                "NO_DATA_FOUND",
              render_page demo_platform_empty.platform_name
                (PageBody.consentForm (assemble_tables_into_form
                  [create_empty_table
                    demo_platform_empty.platform_name]))] ++ tail, rem)) :=
  ⟨rfl, rfl,
   process_c7 "session" demo_platform_empty "file.zip" none [] rfl rfl⟩

/-- Witness for C8 at a concrete platform rejecting the file. -/
theorem process_c8_witness :
    (demo_platform_invalid.validateStatusId "bad.zip" ≠ 0)
    ∧ (((prompt_loop "session" demo_platform_invalid
        (Response.payloadString "bad.zip" :: Response.payloadTrue :: [])).1
      = [donate_logs (trackTag "session" demo_platform_invalid),
         render_page demo_platform_invalid.platform_name
           (PageBody.fileInput (prompt_file FILE_TYPES
             demo_platform_invalid.platform_name)),
         donate_logs (trackTag "session" demo_platform_invalid),
         render_page demo_platform_invalid.platform_name
           (PageBody.confirm (retry_confirmation
             demo_platform_invalid.platform_name))]
        ++ (prompt_loop "session" demo_platform_invalid []).1)
    ∧ (prompt_loop "session" demo_platform_invalid
        (Response.payloadString "bad.zip" :: Response.payloadTrue :: [])).2
      = (prompt_loop "session" demo_platform_invalid []).2
    ∧ ((prompt_loop "session" demo_platform_invalid []).1.take 2
      = [donate_logs (trackTag "session" demo_platform_invalid),
         render_page demo_platform_invalid.platform_name
           (PageBody.fileInput (prompt_file FILE_TYPES
             demo_platform_invalid.platform_name))])
    ∧ (∀ c ∈ (prompt_loop "session" demo_platform_invalid
        (Response.payloadString "bad.zip" :: Response.payloadTrue :: [])).1,
        isLogOrRender c = true)) :=
  ⟨by decide,
   process_c8 "session" demo_platform_invalid "bad.zip" [] (by decide)⟩

end Script


end DDV
